import Mathlib

/-!
Verification of the arcops-mcp findings viewer and chat client.

This file gives a shallow embedding of the data model and operations of the
arcops-mcp repository: the findings JSON contract and its viewer
(src/ui/src/App.tsx), the JSON serialization used by the Export action
(JSON.stringify with a two-space indent) and the JSON.parse based file loader,
and the streaming chat client loop (the ChatPanel component).

Modelling conventions:
- JSON numbers are modelled as integers (the findings data only carries
  counts, node counts and millisecond durations); IEEE doubles are outside
  the scope of the embedding.
- Timestamps and durations produced by Date.now are real-time values and are
  threaded through as opaque string or numeric parameters.
- Network calls are modelled by oracle parameters describing the outcome the
  browser would observe (a delivered event list, a response object, or a
  transport failure).
-/

namespace ArcOps

/-! Section 1: JSON values.

A JSON value as produced by JSON.parse on well-formed input: null, booleans,
(integer) numbers, strings, arrays and objects with ordered fields. -/

inductive Json where
  | null : Json
  | bool (b : Bool) : Json
  | num (n : Int) : Json
  | str (s : String) : Json
  | arr (elems : List Json) : Json
  | obj (fields : List (String × Json)) : Json
deriving Inhabited

/-- Whitespace characters skipped by the JSON lexer. -/
def isWsChar (c : Char) : Bool :=
  c = (' ') || c = ('\n') || c = ('\t') || c = ('\r')

/-- Decimal digit test on characters. -/
def isDigitChar (c : Char) : Bool :=
  48 ≤ c.toNat && c.toNat ≤ 57

/-- Lower-case hexadecimal digit character for a value below 16. -/
def hexDigitChar (n : Nat) : Char :=
  if n < 10 then Char.ofNat (48 + n) else Char.ofNat (87 + n)

/-- Escape of one character, following JSON.stringify: quote and backslash get
a one-letter escape, as do backspace, tab, newline, form feed and carriage
return; any other control character below 0x20 becomes a \u00xx escape; every
other character stands for itself. -/
def escChar (c : Char) : List Char :=
  if c = ('"') then [('\\'), ('"')]
  else if c = ('\\') then [('\\'), ('\\')]
  else if c = ('\x08') then [('\\'), ('b')]
  else if c = ('\t') then [('\\'), ('t')]
  else if c = ('\n') then [('\\'), ('n')]
  else if c = ('\x0c') then [('\\'), ('f')]
  else if c = ('\r') then [('\\'), ('r')]
  else if c.toNat < 32 then
    [('\\'), ('u'), ('0'), ('0'), hexDigitChar (c.toNat / 16), hexDigitChar (c.toNat % 16)]
  else [c]

/-- Rendering of a string literal: quote, escaped characters, quote. -/
def renderStr (s : String) : List Char :=
  ('"') :: (s.data.flatMap escChar ++ [('"')])

/-- Decimal digit characters of a natural number, most significant first. -/
def natChars (n : Nat) : List Char :=
  if n = 0 then [('0')]
  else (Nat.digits 10 n).reverse.map (fun d => Char.ofNat (48 + d))

/-- Decimal characters of an integer: an optional minus sign and the digits. -/
def intChars (i : Int) : List Char :=
  if i < 0 then ('-') :: natChars i.natAbs else natChars i.natAbs

/-- Two-space indentation padding, as inserted by JSON.stringify(v, null, 2). -/
def pad (n : Nat) : List Char := List.replicate n (' ')

mutual

/-- Rendering of a value at a given indentation, following
JSON.stringify(value, null, 2): empty arrays and objects render compactly;
nonempty ones place every element on its own line, indented two further
spaces, with the closing bracket back on the enclosing indentation. -/
def renderVal (ind : Nat) : Json → List Char
  | .null => [('n'), ('u'), ('l'), ('l')]
  | .bool true => [('t'), ('r'), ('u'), ('e')]
  | .bool false => [('f'), ('a'), ('l'), ('s'), ('e')]
  | .num n => intChars n
  | .str s => renderStr s
  | .arr [] => [('['), (']')]
  | .arr (e :: es) =>
    ('[') :: ('\n') ::
      (pad (ind + 2) ++ (renderItems (ind + 2) e es ++ ('\n') :: (pad ind ++ [(']')])))
  | .obj [] => [('{'), ('}')]
  | .obj ((k, v) :: fs) =>
    ('{') :: ('\n') ::
      (pad (ind + 2) ++ (renderFields (ind + 2) k v fs ++ ('\n') :: (pad ind ++ [('}')])))
termination_by j => sizeOf j

/-- Rendering of the elements of a nonempty array, separated by a comma, a
newline and the current padding. -/
def renderItems (ind : Nat) (e : Json) : List Json → List Char
  | [] => renderVal ind e
  | x :: xs => renderVal ind e ++ (',') :: ('\n') :: (pad ind ++ renderItems ind x xs)
termination_by l => sizeOf e + sizeOf l

/-- Rendering of the fields of a nonempty object: quoted key, a colon and a
space, the value, and the same separators as array elements. -/
def renderFields (ind : Nat) (k : String) (v : Json) : List (String × Json) → List Char
  | [] => renderStr k ++ (':') :: (' ') :: renderVal ind v
  | (k2, v2) :: xs =>
    renderStr k ++ (':') :: (' ') :: renderVal ind v
      ++ (',') :: ('\n') :: (pad ind ++ renderFields ind k2 v2 xs)
termination_by l => sizeOf v + sizeOf l

end

/-- Leading whitespace removal, the lexing step between JSON tokens. -/
def skipWs : List Char → List Char
  | [] => []
  | c :: cs => if isWsChar c then skipWs cs else c :: cs

/-- Value of one hexadecimal digit character, either case. -/
def hexVal (c : Char) : Option Nat :=
  if 48 ≤ c.toNat ∧ c.toNat ≤ 57 then some (c.toNat - 48)
  else if 97 ≤ c.toNat ∧ c.toNat ≤ 102 then some (c.toNat - 87)
  else if 65 ≤ c.toNat ∧ c.toNat ≤ 70 then some (c.toNat - 55)
  else none

/-- Single-letter escapes understood by JSON.parse. -/
def unescCh (c : Char) : Option Char :=
  if c = ('"') then some ('"')
  else if c = ('\\') then some ('\\')
  else if c = ('/') then some ('/')
  else if c = ('b') then some ('\x08')
  else if c = ('t') then some ('\t')
  else if c = ('n') then some ('\n')
  else if c = ('f') then some ('\x0c')
  else if c = ('r') then some ('\r')
  else none

/-- Reading of a string body after the opening quote, undoing escapes, with
the characters read so far accumulated in reverse. -/
def readStr (acc : List Char) : List Char → Option (String × List Char)
  | [] => none
  | c :: cs =>
    if c = ('"') then some (String.mk acc.reverse, cs)
    else if c = ('\\') then
      match cs with
      | ('u') :: h1 :: h2 :: h3 :: h4 :: rest =>
        match hexVal h1, hexVal h2, hexVal h3, hexVal h4 with
        | some a, some b, some c2, some d =>
          readStr (Char.ofNat (((a * 16 + b) * 16 + c2) * 16 + d) :: acc) rest
        | _, _, _, _ => none
      | e :: rest =>
        match unescCh e with
        | some ch => readStr (ch :: acc) rest
        | none => none
      | [] => none
    else readStr (c :: acc) cs

/-- Longest leading run of decimal digits, with the remainder. -/
def takeDigits : List Char → List Char × List Char
  | [] => ([], [])
  | c :: cs =>
    if isDigitChar c then
      let p := takeDigits cs
      (c :: p.1, p.2)
    else ([], c :: cs)

/-- Numeric value of a run of digit characters, most significant first. -/
def digitsVal (ds : List Char) : Nat :=
  ds.foldl (fun a c => 10 * a + (c.toNat - 48)) 0

/-- Remainder that cannot extend a digit run: empty input or a non-digit
first character; every separator the renderer emits after a number (comma,
newline, closing brackets) qualifies. -/
def numDelim : List Char → Bool
  | [] => true
  | c :: _ => !(isDigitChar c)

/-- Reading of an integer literal: an optional minus sign and a nonempty run
of digits. -/
def readInt (cs : List Char) : Option (Int × List Char) :=
  match cs with
  | ('-') :: rest =>
    let p := takeDigits rest
    if p.1.isEmpty then none else some (-(digitsVal p.1 : Int), p.2)
  | _ =>
    let p := takeDigits cs
    if p.1.isEmpty then none else some ((digitsVal p.1 : Int), p.2)

mutual

/-- Parsing of one JSON value, fuelled; whitespace is skipped first, and the
leading character selects the production, as in JSON.parse. -/
def parseVal : Nat → List Char → Option (Json × List Char)
  | 0, _ => none
  | fuel + 1, cs =>
    match skipWs cs with
    | ('n') :: ('u') :: ('l') :: ('l') :: rest => some (.null, rest)
    | ('t') :: ('r') :: ('u') :: ('e') :: rest => some (.bool true, rest)
    | ('f') :: ('a') :: ('l') :: ('s') :: ('e') :: rest => some (.bool false, rest)
    | ('"') :: rest =>
      match readStr [] rest with
      | some (s, r2) => some (.str s, r2)
      | none => none
    | ('[') :: rest =>
      match skipWs rest with
      | [] => none
      | c :: r2 =>
        if c = (']') then some (.arr [], r2)
        else
          match parseElems fuel (c :: r2) with
          | some (l, r3) => some (.arr l, r3)
          | none => none
    | ('{') :: rest =>
      match skipWs rest with
      | [] => none
      | c :: r2 =>
        if c = ('}') then some (.obj [], r2)
        else
          match parseFieldList fuel (c :: r2) with
          | some (l, r3) => some (.obj l, r3)
          | none => none
    | c :: rest =>
      if c = ('-') ∨ isDigitChar c then
        match readInt (c :: rest) with
        | some (n, r2) => some (.num n, r2)
        | none => none
      else none
    | [] => none

/-- Parsing of one or more comma-separated array elements, up to the closing
bracket (the empty array is handled before this is entered). -/
def parseElems : Nat → List Char → Option (List Json × List Char)
  | 0, _ => none
  | fuel + 1, cs =>
    match parseVal fuel cs with
    | none => none
    | some (v, r) =>
      match skipWs r with
      | (',') :: r2 =>
        match parseElems fuel (skipWs r2) with
        | some (l, r3) => some (v :: l, r3)
        | none => none
      | (']') :: r2 => some ([v], r2)
      | _ => none

/-- Parsing of one or more comma-separated object fields, up to the closing
brace (the empty object is handled before this is entered). -/
def parseFieldList : Nat → List Char → Option (List (String × Json) × List Char)
  | 0, _ => none
  | fuel + 1, cs =>
    match skipWs cs with
    | ('"') :: r =>
      match readStr [] r with
      | none => none
      | some (k, r1) =>
        match skipWs r1 with
        | (':') :: r2 =>
          match parseVal fuel (skipWs r2) with
          | none => none
          | some (v, r3) =>
            match skipWs r3 with
            | (',') :: r4 =>
              match parseFieldList fuel (skipWs r4) with
              | some (l, r5) => some ((k, v) :: l, r5)
              | none => none
            | ('}') :: r4 => some ([(k, v)], r4)
            | _ => none
        | _ => none
    | _ => none

end

/-- JSON.stringify(value, null, 2), as a string. -/
def stringifyJson (j : Json) : String := String.mk (renderVal 0 j)

/-- JSON.parse: parse one value and require only whitespace to remain. -/
def parseJson (s : String) : Option Json :=
  match parseVal (s.data.length + 1) s.data with
  | some (j, r) => if (skipWs r).isEmpty then some j else none
  | none => none

/-! Section 2: the findings contract and the viewer (src/ui/src/App.tsx).

The findings JSON contract is `{version, target, timestamp, runId, checks[],
summary, metadata}`; a check is `{id, title, status, severity, description,
hint, evidence, sources[], duration_ms}` with the optional fields omitted
when absent, statuses drawn from pass|fail|warn|skipped and severities from
high|medium|low. -/

inductive Status where
  | pass : Status
  | fail : Status
  | warn : Status
  | skipped : Status
deriving DecidableEq, Repr

inductive Severity where
  | high : Severity
  | medium : Severity
  | low : Severity
deriving DecidableEq, Repr

/-- A documentation source attached to a check; the first field is serialized
under the key "type". -/
structure Source where
  stype : String
  label : String
  url : Option String
deriving DecidableEq, Repr

structure Check where
  id : String
  title : String
  status : Status
  severity : Severity
  description : Option String
  hint : Option String
  evidence : Option Json
  sources : Option (List Source)
  duration_ms : Option Nat

structure Summary where
  total : Nat
  pass : Nat
  fail : Nat
  warn : Nat
  skipped : Nat
deriving DecidableEq, Repr

structure Findings where
  version : String
  target : String
  timestamp : String
  runId : Option String
  checks : List Check
  summary : Option Summary
  metadata : Option Json

def statusString : Status → String
  | .pass => ("pass")
  | .fail => ("fail")
  | .warn => ("warn")
  | .skipped => ("skipped")

def statusOfString (s : String) : Option Status :=
  if s = ("pass") then some Status.pass
  else if s = ("fail") then some Status.fail
  else if s = ("warn") then some Status.warn
  else if s = ("skipped") then some Status.skipped
  else none

def severityString : Severity → String
  | .high => ("high")
  | .medium => ("medium")
  | .low => ("low")

def severityOfString (s : String) : Option Severity :=
  if s = ("high") then some Severity.high
  else if s = ("medium") then some Severity.medium
  else if s = ("low") then some Severity.low
  else none

/-- One optional object entry: present fields serialize to a singleton field
list, absent ones to nothing, matching how JSON.stringify drops undefined. -/
def optEntry (k : String) (o : Option Json) : List (String × Json) :=
  match o with
  | some v => [(k, v)]
  | none => []

def sourceToJson (s : Source) : Json :=
  .obj ([(("type"), Json.str s.stype), (("label"), Json.str s.label)]
    ++ optEntry ("url") (s.url.map Json.str))

def checkToJson (c : Check) : Json :=
  .obj ([(("id"), Json.str c.id), (("title"), Json.str c.title),
         (("status"), Json.str (statusString c.status)),
         (("severity"), Json.str (severityString c.severity))]
    ++ optEntry ("description") (c.description.map Json.str)
    ++ optEntry ("hint") (c.hint.map Json.str)
    ++ optEntry ("evidence") c.evidence
    ++ optEntry ("sources") (c.sources.map (fun l => Json.arr (l.map sourceToJson)))
    ++ optEntry ("duration_ms") (c.duration_ms.map (fun n => Json.num (n : Int))))

def summaryToJson (s : Summary) : Json :=
  .obj [(("total"), Json.num (s.total : Int)), (("pass"), Json.num (s.pass : Int)),
        (("fail"), Json.num (s.fail : Int)), (("warn"), Json.num (s.warn : Int)),
        (("skipped"), Json.num (s.skipped : Int))]

/-- Serialization of a findings object, field for field in declaration order
with absent optional fields dropped, as JSON.stringify does on the viewer
state object. -/
def findingsToJson (f : Findings) : Json :=
  .obj ([(("version"), Json.str f.version), (("target"), Json.str f.target),
         (("timestamp"), Json.str f.timestamp)]
    ++ optEntry ("runId") (f.runId.map Json.str)
    ++ [(("checks"), Json.arr (f.checks.map checkToJson))]
    ++ optEntry ("summary") (f.summary.map summaryToJson)
    ++ optEntry ("metadata") f.metadata)

/-- First field with the given key, as JavaScript property lookup on a parsed
object (serialized objects never repeat a key). -/
def getField : List (String × Json) → String → Option Json
  | [], _ => none
  | (k0, v) :: rest, k => if k0 = k then some v else getField rest k

def asStr : Json → Option String
  | .str s => some s
  | _ => none

def asNat : Json → Option Nat
  | .num n => if 0 ≤ n then some n.toNat else none
  | _ => none

def asArr : Json → Option (List Json)
  | .arr l => some l
  | _ => none

def asObj : Json → Option (List (String × Json))
  | .obj l => some l
  | _ => none

/-- Decoding of every element of a JSON array, failing when any element
fails, as the validator does over the checks array. -/
def decodeList {a : Type} (dec : Json → Option a) : List Json → Option (List a)
  | [] => some []
  | j :: js =>
    match dec j with
    | some x => (decodeList dec js).map (fun l => x :: l)
    | none => none

def sourceOfJson (j : Json) : Option Source := do
  let fs ← asObj j
  let st ← (getField fs ("type")).bind asStr
  let lb ← (getField fs ("label")).bind asStr
  pure { stype := st, label := lb, url := (getField fs ("url")).bind asStr }

def checkOfJson (j : Json) : Option Check := do
  let fs ← asObj j
  let id ← (getField fs ("id")).bind asStr
  let title ← (getField fs ("title")).bind asStr
  let status ← ((getField fs ("status")).bind asStr).bind statusOfString
  let severity ← ((getField fs ("severity")).bind asStr).bind severityOfString
  pure { id := id, title := title, status := status, severity := severity,
         description := (getField fs ("description")).bind asStr,
         hint := (getField fs ("hint")).bind asStr,
         evidence := getField fs ("evidence"),
         sources := ((getField fs ("sources")).bind asArr).bind (decodeList sourceOfJson),
         duration_ms := (getField fs ("duration_ms")).bind asNat }

def summaryOfJson (j : Json) : Option Summary := do
  let fs ← asObj j
  let t ← (getField fs ("total")).bind asNat
  let p ← (getField fs ("pass")).bind asNat
  let fl ← (getField fs ("fail")).bind asNat
  let w ← (getField fs ("warn")).bind asNat
  let sk ← (getField fs ("skipped")).bind asNat
  pure { total := t, pass := p, fail := fl, warn := w, skipped := sk }

/-- Modelled from the spec: validateFindings lives in src/ui/src/lib/schema.ts,
which is not among the sources (only its import sites are). Per the spec,
validation rejects a malformed findings file or missing schema fields with a
human-readable message; it is a shape check over the schema above and does not
cross-check the summary counts against the checks array, which no field of the
schema requires. A valid payload is decoded to a typed findings value. -/
def findingsOfJson (j : Json) : Option Findings := do
  let fs ← asObj j
  let version ← (getField fs ("version")).bind asStr
  let target ← (getField fs ("target")).bind asStr
  let timestamp ← (getField fs ("timestamp")).bind asStr
  let checksJ ← (getField fs ("checks")).bind asArr
  let checks ← decodeList checkOfJson checksJ
  pure { version := version, target := target, timestamp := timestamp,
         runId := (getField fs ("runId")).bind asStr,
         checks := checks,
         summary := (getField fs ("summary")).bind summaryOfJson,
         metadata := getField fs ("metadata") }

/-- Modelled from the spec: calculateSummary lives in src/ui/src/lib/schema.ts,
which is not among the sources. Per the spec, the computed summary tallies the
checks by status and its total equals checks.length. -/
def calculateSummary (checks : List Check) : Summary :=
  { total := checks.length,
    pass := checks.countP (fun c => decide (c.status = Status.pass)),
    fail := checks.countP (fun c => decide (c.status = Status.fail)),
    warn := checks.countP (fun c => decide (c.status = Status.warn)),
    skipped := checks.countP (fun c => decide (c.status = Status.skipped)) }

/-- Embedding of loadFindings (App.tsx lines 61-74): validate the parsed data;
when the object carries no summary, fill one in with calculateSummary, and
otherwise keep the loaded object exactly as it came; an invalid payload is
rejected (the viewer shows an error message instead). -/
def loadFindings (data : Json) : Option Findings :=
  match findingsOfJson data with
  | some f =>
    match f.summary with
    | some _ => some f
    | none => some { f with summary := some (calculateSummary f.checks) }
  | none => none

/-- Embedding of handleFile (App.tsx lines 76-91): JSON.parse on the file text
followed by loadFindings; a parse failure is rejected. -/
def handleFile (text : String) : Option Findings :=
  (parseJson text).bind loadFindings

/-- Embedding of the Export action (App.tsx exportBundle, lines 132-146):
JSON.stringify(findings, null, 2). -/
def exportBundle (f : Findings) : String := stringifyJson (findingsToJson f)

/-- Values shown by the five SummaryCard tiles (App.tsx lines 960-997): each
reads its summary field through the optional chain with a 0 default, with no
recomputation from the checks array. -/
def summaryCardValues (f : Findings) : Nat × Nat × Nat × Nat × Nat :=
  ((f.summary.map Summary.total).getD 0,
   (f.summary.map Summary.pass).getD 0,
   (f.summary.map Summary.fail).getD 0,
   (f.summary.map Summary.warn).getD 0,
   (f.summary.map Summary.skipped).getD 0)

/-! Section 3: the streaming chat client (ChatPanel.sendMessage and the
message renderer). Timestamps (new Date(), Date.now()) are real-time values
and are left out of the embedded records; they feed no control flow. -/

inductive Role where
  | user : Role
  | assistant : Role
  | system : Role
deriving DecidableEq, Repr

structure ToolCall where
  tool : String
  result : Json

structure Message where
  role : Role
  content : String
  toolCalls : Option (List ToolCall)

structure ToolInfo where
  id : String
  name : String
  icon : String
deriving DecidableEq, Repr

inductive ExecStatus where
  | pending : ExecStatus
  | running : ExecStatus
  | success : ExecStatus
  | error : ExecStatus
deriving DecidableEq, Repr

structure ToolExecution where
  toolId : String
  toolName : String
  icon : String
  status : ExecStatus
deriving DecidableEq, Repr

/-- One server-sent event of the streaming chat protocol, with the payload
fields the client reads; absent JSON fields are none. -/
inductive StreamEvent where
  | phase (phase : Option String) (message : Option String) : StreamEvent
  | scanning (tool : Option ToolInfo) (highlight : Option Bool) : StreamEvent
  | selected (tool : Option ToolInfo) : StreamEvent
  | executing : StreamEvent
  | tool_complete (tool : Option ToolInfo) (success : Option Bool) : StreamEvent
  | complete (content : Option String) (toolCalls : Option (List ToolCall)) : StreamEvent
  | errorEvent (error : Option String) : StreamEvent

/-- The component state sendMessage reads and writes: the message list, the
tool execution list, the completion flag, and the per-call locals scannedTools
and selectedTool of the stream loop. -/
structure ChatTurnState where
  messages : List Message
  toolExecutions : List ToolExecution
  executionComplete : Bool
  scannedTools : List ToolExecution
  selectedTool : Option ToolExecution

def emptyTurnState : ChatTurnState :=
  { messages := [], toolExecutions := [], executionComplete := false,
    scannedTools := [], selectedTool := none }

/-- The TOOL_NAMES table with its fallback row: friendly name and icon. -/
def toolNames (t : String) : String × String :=
  if t = ("run_connectivity_check") then (("Azure Connectivity Check"), ("🌐"))
  else if t = ("check_environment") then (("Environment Validation"), ("🔍"))
  else if t = ("validate_cluster") then (("AKS Arc Cluster Validation"), ("☸️"))
  else if t = ("search_tsg") then (("TSG Search"), ("📚"))
  else (t, ("🔧"))

/-- JavaScript or-else on an optional string: both a missing field and the
empty string are falsy and select the default. -/
def orDefault (o : Option String) (d : String) : String :=
  match o with
  | some s => if s = ("") then d else s
  | none => d

/-- Apostrophe character, spelled by code point. -/
def apos : Char := Char.ofNat 39

/-- Default assistant reply used when a complete event carries no content. -/
def defaultProcessed : String :=
  String.mk ([('I'), apos] ++ ("ve processed your request.").data)

/-- The assistant message the complete handler builds: the event content, or
the default when absent or empty, with the given tool_calls attachment. -/
def mkAssistant (c : Option String) (tcs : Option (List ToolCall)) : Message :=
  { role := Role.assistant, content := orDefault c defaultProcessed, toolCalls := tcs }

/-- Embedding of the switch over event.type in the stream read loop of
ChatPanel.sendMessage (lines 625-759), one event at a time. -/
def processEvent (st : ChatTurnState) : StreamEvent → ChatTurnState
  | .phase p msg =>
    if p = some ("analyzing") then
      { st with toolExecutions :=
          [{ toolId := ("analyzing"), toolName := orDefault msg ("Analyzing..."),
             icon := ("🧠"), status := ExecStatus.running }] }
    else if p = some ("thinking") then
      { st with toolExecutions := st.toolExecutions.map (fun t =>
          if t.toolId = ("analyzing") then
            { t with toolName := orDefault msg ("Thinking...") }
          else t) }
    else st
  | .scanning tool highlight =>
    match tool with
    | none => st
    | some t =>
      let isH : Bool := highlight = some true
      let scanExec : ToolExecution :=
        { toolId := t.id, toolName := t.name, icon := t.icon,
          status := if isH then ExecStatus.running else ExecStatus.pending }
      let scanned := st.scannedTools ++ [scanExec]
      { st with
        scannedTools := scanned,
        toolExecutions :=
          { toolId := ("mcp_scanning"),
            toolName := if isH then ("Found: ") ++ t.name else ("Scanning MCP tools..."),
            icon := ("🔌"), status := ExecStatus.running }
          :: scanned.map (fun te =>
            { te with status :=
                if te.toolId = t.id ∧ isH then ExecStatus.success
                else if te.toolId = t.id then ExecStatus.running
                else ExecStatus.pending }) }
  | .selected tool =>
    match tool with
    | none => st
    | some t =>
      let sel : ToolExecution :=
        { toolId := t.id, toolName := t.name, icon := t.icon, status := ExecStatus.running }
      { st with selectedTool := some sel, toolExecutions := [sel] }
  | .executing =>
    match st.selectedTool with
    | some s => { st with toolExecutions := [{ s with status := ExecStatus.running }] }
    | none => st
  | .tool_complete tool success =>
    match st.selectedTool, tool with
    | some s, some _ =>
      { st with toolExecutions :=
          [{ s with status := if success = some true then ExecStatus.success else ExecStatus.error }] }
    | _, _ => st
  | .complete content toolCalls =>
    let st1 := { st with executionComplete := true }
    let st2 :=
      match toolCalls with
      | some tcs =>
        if 0 < tcs.length then
          { st1 with toolExecutions := tcs.map (fun (tc : ToolCall) =>
              { toolId := tc.tool, toolName := (toolNames tc.tool).1,
                icon := (toolNames tc.tool).2, status := ExecStatus.success }) }
        else st1
      | none => st1
    let newMessage : Message :=
      { role := Role.assistant,
        content := orDefault content defaultProcessed,
        toolCalls :=
          match toolCalls with
          | some tcs => if 0 < tcs.length then some tcs else none
          | none => none }
    { st2 with messages := st2.messages ++ [newMessage] }
  | .errorEvent err =>
    { st with messages := st.messages ++
        [{ role := Role.assistant,
           content := ("⚠️ ") ++ orDefault err ("Something went wrong."),
           toolCalls := none }] }

/-- Folding of the whole delivered event stream, in arrival order. -/
def processEvents (st : ChatTurnState) (events : List StreamEvent) : ChatTurnState :=
  events.foldl processEvent st

/-- Outcome of the streaming request as the client observes it: either the
whole event stream is delivered, or the attempt throws after some prefix (a
failed fetch or mid-stream read error), carrying the error message. -/
inductive StreamResult where
  | delivered (events : List StreamEvent) : StreamResult
  | failedAfter (events : List StreamEvent) (errMsg : String) : StreamResult

/-- Outcome of the non-streaming fallback request: a JSON response with the
fields the client reads, or a thrown network error. -/
inductive FallbackResult where
  | response (success : Bool) (content : Option String)
      (toolCalls : Option (List ToolCall)) (error : Option String)
      (hint : Option String) : FallbackResult
  | netError (msg : String) : FallbackResult

inductive Request where
  | streamChat : Request
  | chat : Request
deriving DecidableEq, Repr

/-- Whitespace trimmed by String.prototype.trim on the characters these
messages use. -/
def isTrimWs (c : Char) : Bool :=
  c = (' ') || c = ('\t') || c = ('\n') || c = ('\r')

def jsTrim (s : String) : String :=
  String.mk (((s.data.dropWhile isTrimWs).reverse.dropWhile isTrimWs).reverse)

/-- Turn setup at the top of sendMessage (lines 572-588): append the user
message, clear the tool execution list and the completion flag, and start with
fresh scannedTools and selectedTool locals. -/
def startTurn (st0 : ChatTurnState) (input : String) : ChatTurnState :=
  { messages := st0.messages ++ [{ role := Role.user, content := jsTrim input, toolCalls := none }],
    toolExecutions := [],
    executionComplete := false,
    scannedTools := [],
    selectedTool := none }

def apologyText (errMsg : String) : String :=
  ("⚠️ Failed to connect to chat service. Is the MCP server running?\n\nError: ") ++ errMsg

def hintSuffix (h : Option String) : String :=
  match h with
  | some s => if s = ("") then ("") else ("\n\n💡 ") ++ s
  | none => ("")

/-- Embedding of ChatPanel.sendMessage (lines 569-827): guard on empty input,
turn setup, the streaming attempt, and on its failure exactly one fallback
call to the non-streaming endpoint, whose own failure yields the apology
message. The returned list records the requests issued, in order. (The
request payload built from prior non-system messages feeds no control flow
here and is not modelled.) -/
def sendMessage (st0 : ChatTurnState) (input : String) (stream : StreamResult)
    (fallback : FallbackResult) : ChatTurnState × List Request :=
  if jsTrim input = ("") then (st0, [])
  else
    let st1 := startTurn st0 input
    match stream with
    | .delivered events => (processEvents st1 events, [Request.streamChat])
    | .failedAfter events errMsg =>
      let st2 := processEvents st1 events
      match fallback with
      | .response success content toolCalls errorMsg hint =>
        if success then
          let st3 :=
            match toolCalls with
            | some tcs =>
              if 0 < tcs.length then
                { st2 with
                  toolExecutions := tcs.map (fun (tc : ToolCall) =>
                    { toolId := tc.tool, toolName := (toolNames tc.tool).1,
                      icon := (toolNames tc.tool).2, status := ExecStatus.success }),
                  executionComplete := true }
              else st2
            | none => st2
          ({ st3 with messages := st3.messages ++
              [{ role := Role.assistant, content := orDefault content defaultProcessed,
                 toolCalls := toolCalls }] },
           [Request.streamChat, Request.chat])
        else
          ({ st2 with messages := st2.messages ++
              [{ role := Role.assistant,
                 content := ("⚠️ ") ++ orDefault errorMsg ("Something went wrong.") ++ hintSuffix hint,
                 toolCalls := none }] },
           [Request.streamChat, Request.chat])
      | .netError _ =>
        ({ st2 with messages := st2.messages ++
            [{ role := Role.assistant, content := apologyText errMsg, toolCalls := none }] },
         [Request.streamChat, Request.chat])

def openTag : List Char := ("<tool_call>").data

def closeTag : List Char := ("</tool_call>").data

/-- Suffix just past the first occurrence of the closing tag, if any. -/
def dropAfterClose : List Char → Option (List Char)
  | [] => none
  | c :: cs =>
    if closeTag.isPrefixOf (c :: cs) then some ((c :: cs).drop closeTag.length)
    else dropAfterClose cs

/-- Left-to-right removal of every lazily matched span from an opening tag to
the earliest closing tag, continuing after each removed span; an opening tag
with no closing tag is left in place. Fuelled by the input length. -/
def removeSpansAux : Nat → List Char → List Char
  | 0, cs => cs
  | fuel + 1, cs =>
    match cs with
    | [] => []
    | c :: cs2 =>
      if openTag.isPrefixOf (c :: cs2) then
        match dropAfterClose ((c :: cs2).drop openTag.length) with
        | some rest => removeSpansAux fuel rest
        | none => c :: removeSpansAux fuel cs2
      else c :: removeSpansAux fuel cs2

/-- Embedding of the rendering cleanup (ChatPanel lines 1174-1177): the
replace of every tool_call-tagged span with the empty string, then trim. -/
def cleanContent (s : String) : String :=
  jsTrim (String.mk (removeSpansAux s.data.length s.data))

/-- Content the message bubble displays (ChatPanel lines 1171-1192): nothing
when the stored content, or its cleaned form, is empty; the cleaned content
otherwise. -/
def displayedContent (m : Message) : Option String :=
  if m.content = ("") then none
  else
    let clean := cleanContent m.content
    if clean = ("") then none else some clean

/-- Phase position of an event in the orchestration sequence of the spec. -/
def phaseRank : StreamEvent → Nat
  | .phase _ _ => 0
  | .scanning _ _ => 1
  | .selected _ => 2
  | .executing => 3
  | .tool_complete _ _ => 4
  | .complete _ _ => 5
  | .errorEvent _ => 6

/-- Lifecycle position of a tool execution status. -/
def statusRank : ExecStatus → Nat
  | .pending => 0
  | .running => 1
  | .success => 2
  | .error => 2

/-- Status the execution list shows for a given tool id, if listed. -/
def execStatusOf (st : ChatTurnState) (id : String) : Option ExecStatus :=
  (st.toolExecutions.find? (fun te => decide (te.toolId = id))).map ToolExecution.status

/-- Modelled from the spec: the server-side streaming orchestrator (the
FastAPI chat endpoint, not among the sources; only the client that consumes
it is). For a turn in which the model selects a tool, it emits the discrete
phases in order (analyzing, then one scanning event per catalog tool with the
chosen one highlighted, then selected, executing and tool complete), and
closes with a complete event carrying the final content and the executed tool
calls. -/
def orchestratorStream (catalog : List ToolInfo) (chosen : ToolInfo) (result : Json)
    (success : Bool) (finalContent : String) : List StreamEvent :=
  [StreamEvent.phase (some ("analyzing")) (some ("Analyzing your request..."))]
  ++ catalog.map (fun t => StreamEvent.scanning (some t) (some (decide (t.id = chosen.id))))
  ++ [StreamEvent.selected (some chosen),
      StreamEvent.executing,
      StreamEvent.tool_complete (some chosen) (some success),
      StreamEvent.complete (some finalContent) (some [{ tool := chosen.id, result := result }])]

/-- Modelled from the spec: the server-side tool executor (not among the
sources) wraps each tool call in try/catch; a tool that throws yields a check
with status fail carrying the error message, rather than crashing the run. -/
def runToolSafely (toolId : String) (outcome : Except String (List Check)) : List Check :=
  match outcome with
  | .ok cs => cs
  | .error msg =>
    [{ id := toolId, title := toolId, status := Status.fail, severity := Severity.high,
       description := some msg, hint := none, evidence := none, sources := none,
       duration_ms := none }]

/-- The connectivity tool of the catalog, as the scenario names it. -/
def connectivityTool : ToolInfo :=
  { id := ("run_connectivity_check"), name := ("Azure Connectivity Check"), icon := ("🌐") }

/-! Section 4: the cluster validation action of the dashboard
(App.tsx runDiagnostic, validate branch, lines 386-453). -/

structure AzureContext where
  subscription : String
  subscriptionId : String
  resourceGroup : String
  clusterName : String
  connected : Bool

/-- One check as the validation API returns it (the fields the UI reads). -/
structure ApiCheck where
  id : String
  title : String
  status : Status
  severity : Severity
  evidence : Option Json
  hint : Option String

/-- The validation response as the UI reads it: response.ok with the status
text, then the success flag, error, checks, summary and cluster fields of the
JSON body. -/
structure ValidateResponse where
  ok : Bool
  statusText : String
  success : Bool
  error : Option String
  checks : List ApiCheck
  summary : Option Summary
  cluster : String
  resourceGroup : String

inductive DiagOutcome where
  | resultsShown (f : Findings) : DiagOutcome
  | errorShown (msg : String) : DiagOutcome

/-- Conversion of an API check into the findings Check shape (App.tsx lines
412-428): the hint, or the title with a check suffix, becomes the description,
and the hint field itself is dropped. -/
def apiCheckToCheck (c : ApiCheck) : Check :=
  { id := c.id, title := c.title, status := c.status, severity := c.severity,
    description := some (orDefault c.hint (c.title ++ (" check"))),
    hint := none, evidence := c.evidence, sources := none, duration_ms := none }

/-- The findings object the validate branch assembles from a successful
validation response (App.tsx lines 407-431). -/
def validateFindingsOf (r : ValidateResponse) (timestamp runId : String) : Findings :=
  { version := ("1.0.0"), target := ("cluster"), timestamp := timestamp,
    runId := some runId,
    checks := r.checks.map apiCheckToCheck,
    summary := r.summary,
    metadata := some (Json.obj [(("cluster"), Json.str r.cluster),
                                (("resourceGroup"), Json.str r.resourceGroup)]) }

/-- Embedding of runDiagnostic for the validate type (App.tsx lines 386-453):
with a configured cluster and resource group the validation API is called and
its checks are converted into a findings object (summary taken from the
response as is); without them control falls through to the trailing throw and
the catch shows its message as the error. The response oracle is none when the
fetch itself throws; timestamp and runId stand for the Date-derived values. -/
def runDiagnosticValidate (ctx : AzureContext) (resp : Option ValidateResponse)
    (timestamp runId : String) : DiagOutcome :=
  if ctx.clusterName ≠ ("") ∧ ctx.resourceGroup ≠ ("") then
    match resp with
    | none => DiagOutcome.errorShown ("Failed to run diagnostic. Is the MCP server running?")
    | some r =>
      if ¬ r.ok then DiagOutcome.errorShown (("Server error: ") ++ r.statusText)
      else if ¬ r.success then DiagOutcome.errorShown (orDefault r.error ("Validation failed"))
      else DiagOutcome.resultsShown (validateFindingsOf r timestamp runId)
  else DiagOutcome.errorShown ("Invalid diagnostic type or missing parameters")

/-- Modelled from the spec: the server-side aks.arc.validate tool is not among
the sources; per the spec and the SOP, when no kubeconfig or Arc context is
detected it returns checks with status skipped and a hint on how to enable
validation, rather than failing, and validates read-only invariants when a
context is present. -/
def aksArcValidate (kubeconfig : Option String) (cluster resourceGroup : String)
    (realChecks : List ApiCheck) : ValidateResponse :=
  match kubeconfig with
  | none =>
    { ok := true, statusText := ("200"), success := true, error := none,
      checks := [{ id := ("aks.arc.validate.context"), title := ("Cluster context available"),
                   status := Status.skipped, severity := Severity.low, evidence := none,
                   hint := some ("No kubeconfig or Arc context detected. Connect a cluster to enable validation.") }],
      summary := none, cluster := cluster, resourceGroup := resourceGroup }
  | some _ =>
    { ok := true, statusText := ("200"), success := true, error := none,
      checks := realChecks, summary := none, cluster := cluster, resourceGroup := resourceGroup }

/-! Concrete fixtures used to instantiate the claims. -/

/-- Fixture: a findings file whose stored summary (total 1) disagrees with
its empty checks array. -/
def mismatchedSummaryFindings : Findings :=
  { version := ("1.0.0"), target := ("host"), timestamp := ("2024-01-01T00:00:00Z"),
    runId := none, checks := [],
    summary := some { total := 1, pass := 0, fail := 0, warn := 0, skipped := 0 },
    metadata := none }

/-- Fixture: a findings file carrying no summary of its own. -/
def noSummaryFindings : Findings :=
  { version := ("1.0.0"), target := ("host"), timestamp := ("2024-01-02T00:00:00Z"),
    runId := some ("r1"), checks := [], summary := none, metadata := none }

/-- Fixture: a single passing check. -/
def onePassCheck : Check :=
  { id := ("c1"), title := ("one"), status := Status.pass, severity := Severity.low,
    description := none, hint := none, evidence := none, sources := none,
    duration_ms := none }

/-- Fixture: a findings file with one check and a stored summary of total 5. -/
def storedSummaryFindings : Findings :=
  { version := ("1.0.0"), target := ("cluster"), timestamp := ("2024-02-01T00:00:00Z"),
    runId := none, checks := [onePassCheck],
    summary := some { total := 5, pass := 0, fail := 0, warn := 0, skipped := 0 },
    metadata := none }

/-- Fixture: an Azure context with no cluster selected. -/
def emptyAzureContext : AzureContext :=
  { subscription := (""), subscriptionId := (""), resourceGroup := (""),
    clusterName := (""), connected := false }

/-- Fixture: an Azure context with a selected cluster. -/
def selectedAzureContext : AzureContext :=
  { subscription := ("sub"), subscriptionId := ("sub-id"), resourceGroup := ("rg1"),
    clusterName := ("aks1"), connected := true }

/-- Fixture: the canonical connectivity-check turn of the scenario, one
catalog tool that is scanned with a highlight, selected, executed and
reported in the final complete event. -/
def connectivityTurnEvents : List StreamEvent :=
  orchestratorStream [connectivityTool] connectivityTool Json.null true ("done")

/-- Fixture: a running execution of the cluster validation tool. -/
def validateExec : ToolExecution :=
  { toolId := ("validate_cluster"), toolName := ("AKS Arc Cluster Validation"),
    icon := ("☸️"), status := ExecStatus.running }

/-- Fixture: a turn state with a selected tool. -/
def selectedToolState : ChatTurnState :=
  { emptyTurnState with selectedTool := some validateExec }

/-! Section 5: proofs. First the JSON codec round trip, then the claims about
the viewer and the chat client. -/

/-- Digit characters built from a digit value carry that value and pass the
digit test. -/
theorem digitChar_spec (d : Nat) (h : d < 10) :
    (Char.ofNat (48 + d)).toNat = 48 + d ∧ isDigitChar (Char.ofNat (48 + d)) = true := by
  interval_cases d <;> exact ⟨rfl, rfl⟩

theorem natChars_ne_nil (n : Nat) : natChars n ≠ [] := by
  unfold natChars
  by_cases h : n = 0
  · simp [h]
  · simp only [if_neg h]
    intro hc
    rw [List.map_eq_nil_iff, List.reverse_eq_nil_iff] at hc
    exact h (Nat.digits_ne_nil_iff_ne_zero.mpr h hc).elim

theorem natChars_all_digits (n : Nat) : ∀ c ∈ natChars n, isDigitChar c = true := by
  unfold natChars
  by_cases h : n = 0
  · simp [h]
    decide
  · simp only [if_neg h]
    intro c hc
    rw [List.mem_map] at hc
    obtain ⟨d, hd, rfl⟩ := hc
    rw [List.mem_reverse] at hd
    exact (digitChar_spec d (Nat.digits_lt_base (by omega) hd)).2

/-- Fold that reads back big-endian digit characters, stated over the digit
values before the character mapping. -/
theorem foldr_digit_chars (l : List Nat) (h : ∀ d ∈ l, d < 10) :
    List.foldr (fun c (a : Nat) => 10 * a + (c.toNat - 48)) 0
        (l.map (fun d => Char.ofNat (48 + d)))
      = Nat.ofDigits 10 l := by
  induction l with
  | nil => simp [Nat.ofDigits]
  | cons d t ih =>
    have hd : d < 10 := h d (by simp)
    have ht := ih (fun x hx => h x (by simp [hx]))
    simp only [List.map_cons, List.foldr_cons, ht, Nat.ofDigits_cons,
      (digitChar_spec d hd).1]
    omega

theorem digitsVal_natChars (n : Nat) : digitsVal (natChars n) = n := by
  unfold natChars digitsVal
  by_cases h : n = 0
  · simp [h]
  · simp only [if_neg h]
    rw [List.map_reverse, List.foldl_reverse, foldr_digit_chars _
      (fun d hd => Nat.digits_lt_base (by omega) hd), Nat.ofDigits_digits]

theorem natChars_head (n : Nat) :
    ∃ c t, natChars n = c :: t ∧ isDigitChar c = true := by
  match h : natChars n with
  | [] => exact absurd h (natChars_ne_nil n)
  | c :: t =>
    refine ⟨c, t, rfl, natChars_all_digits n c ?_⟩
    rw [h]
    exact List.mem_cons_self c t

theorem takeDigits_stop {l : List Char} (h : numDelim l = true) :
    takeDigits l = ([], l) := by
  cases l with
  | nil => rfl
  | cons c t =>
    simp only [numDelim, Bool.not_eq_true'] at h
    simp [takeDigits, h]

theorem takeDigits_run (ds : List Char) (hds : ∀ c ∈ ds, isDigitChar c = true)
    (rest : List Char) (hrest : numDelim rest = true) :
    takeDigits (ds ++ rest) = (ds, rest) := by
  induction ds with
  | nil => simpa using takeDigits_stop hrest
  | cons c t ih =>
    have hc : isDigitChar c = true := hds c (by simp)
    have ht := ih (fun x hx => hds x (by simp [hx]))
    simp [takeDigits, hc, ht]

theorem digit_not_minus {c : Char} (h : isDigitChar c = true) : c ≠ ('-') := by
  intro he
  rw [he] at h
  exact absurd h (by decide)

theorem readInt_intChars (i : Int) (rest : List Char) (hr : numDelim rest = true) :
    readInt (intChars i ++ rest) = some (i, rest) := by
  obtain ⟨c0, t0, h0, hc0⟩ := natChars_head i.natAbs
  have htake : takeDigits (natChars i.natAbs ++ rest) = (natChars i.natAbs, rest) :=
    takeDigits_run _ (natChars_all_digits _) _ hr
  by_cases hi : i < 0
  · have harg : intChars i ++ rest = ('-') :: (natChars i.natAbs ++ rest) := by
      simp [intChars, hi]
    rw [harg]
    simp only [readInt, htake]
    rw [if_neg (by simp [natChars_ne_nil])]
    simp only [digitsVal_natChars, Option.some.injEq, Prod.mk.injEq, and_true]
    omega
  · have harg : intChars i ++ rest = c0 :: (t0 ++ rest) := by
      simp [intChars, hi, h0]
    have htake2 : takeDigits (c0 :: (t0 ++ rest)) = (c0 :: t0, rest) := by
      have h2 := htake
      rwa [h0, List.cons_append] at h2
    have hdv : digitsVal (c0 :: t0) = i.natAbs := by
      have h2 := digitsVal_natChars i.natAbs
      rwa [h0] at h2
    rw [harg, readInt.eq_def]
    split
    · rename_i r heq
      rw [List.cons.injEq] at heq
      exact absurd heq.1 (digit_not_minus hc0)
    · simp only [htake2]
      rw [if_neg (by simp)]
      simp only [hdv, Option.some.injEq, Prod.mk.injEq, and_true]
      omega

theorem hexVal_hexDigitChar (d : Nat) (h : d < 16) : hexVal (hexDigitChar d) = some d := by
  interval_cases d <;> decide

/-- Reading one escaped character undoes the escape. -/
theorem readStr_escChar (c : Char) (acc rest : List Char) :
    readStr acc (escChar c ++ rest) = readStr (c :: acc) rest := by
  unfold escChar
  by_cases h1 : c = ('"')
  · subst h1
    rw [if_pos rfl, List.cons_append, readStr.eq_def]
    simp [unescCh]
  · rw [if_neg h1]
    by_cases h2 : c = ('\\')
    · subst h2
      rw [if_pos rfl, List.cons_append, readStr.eq_def]
      simp [unescCh]
    · rw [if_neg h2]
      by_cases h3 : c = ('\x08')
      · subst h3
        rw [if_pos rfl, List.cons_append, readStr.eq_def]
        simp [unescCh]
      · rw [if_neg h3]
        by_cases h4 : c = ('\t')
        · subst h4
          rw [if_pos rfl, List.cons_append, readStr.eq_def]
          simp [unescCh]
        · rw [if_neg h4]
          by_cases h5 : c = ('\n')
          · subst h5
            rw [if_pos rfl, List.cons_append, readStr.eq_def]
            simp [unescCh]
          · rw [if_neg h5]
            by_cases h6 : c = ('\x0c')
            · subst h6
              rw [if_pos rfl, List.cons_append, readStr.eq_def]
              simp [unescCh]
            · rw [if_neg h6]
              by_cases h7 : c = ('\r')
              · subst h7
                rw [if_pos rfl, List.cons_append, readStr.eq_def]
                simp [unescCh]
              · rw [if_neg h7]
                by_cases h8 : c.toNat < 32
                · rw [if_pos h8]
                  have d1 : hexVal (hexDigitChar (c.toNat / 16)) = some (c.toNat / 16) :=
                    hexVal_hexDigitChar _ (by omega)
                  have d2 : hexVal (hexDigitChar (c.toNat % 16)) = some (c.toNat % 16) :=
                    hexVal_hexDigitChar _ (by omega)
                  have h0 : hexVal ('0') = some 0 := by decide
                  rw [List.cons_append, readStr.eq_def]
                  simp only [List.cons_append, List.nil_append]
                  rw [if_neg (by decide), if_pos (by decide)]
                  simp only [d1, d2, h0]
                  have harith : ((0 * 16 + 0) * 16 + c.toNat / 16) * 16 + c.toNat % 16
                      = c.toNat := by omega
                  rw [harith, Char.ofNat_toNat]
                · rw [if_neg h8]
                  rw [List.cons_append, readStr.eq_def]
                  simp [h1, h2]

/-- Reading an escaped run stops exactly at the closing quote. -/
theorem readStr_flat (cs : List Char) : ∀ (acc rest : List Char),
    readStr acc (cs.flatMap escChar ++ ('"') :: rest)
      = some (String.mk (acc.reverse ++ cs), rest) := by
  induction cs with
  | nil =>
    intro acc rest
    rw [List.flatMap_nil, List.nil_append, readStr.eq_def]
    simp
  | cons c t ih =>
    intro acc rest
    rw [List.flatMap_cons, List.append_assoc, readStr_escChar, ih]
    simp

/-- The string codec round trip for a rendered string body. -/
theorem readStr_renderStr (s : String) (rest : List Char) :
    readStr [] (s.data.flatMap escChar ++ ('"') :: rest) = some (s, rest) := by
  rw [readStr_flat]
  rfl

theorem skipWs_cons_ws {c : Char} (h : isWsChar c = true) (x : List Char) :
    skipWs (c :: x) = skipWs x := by
  simp [skipWs, h]

theorem skipWs_cons_nonws {c : Char} (h : isWsChar c = false) (x : List Char) :
    skipWs (c :: x) = c :: x := by
  simp [skipWs, h]

theorem skipWs_pad (n : Nat) (x : List Char) : skipWs (pad n ++ x) = skipWs x := by
  induction n with
  | zero => simp [pad]
  | succ m ih =>
    rw [pad, List.replicate_succ, List.cons_append, skipWs_cons_ws (by decide)]
    exact ih

/-- Facts about digit characters: not whitespace and none of the structural
characters of the grammar. -/
theorem digit_facts {c : Char} (h : isDigitChar c = true) :
    isWsChar c = false ∧ c ≠ (']') ∧ c ≠ ('}') ∧ c ≠ (',') ∧ c ≠ ('-')
      ∧ c ≠ ('n') ∧ c ≠ ('t') ∧ c ≠ ('f') ∧ c ≠ ('"') ∧ c ≠ ('[') ∧ c ≠ ('{') := by
  simp only [isDigitChar, Bool.and_eq_true, decide_eq_true_eq] at h
  refine ⟨?_, ?_, ?_, ?_, ?_, ?_, ?_, ?_, ?_, ?_, ?_⟩
  · simp only [isWsChar, Bool.or_eq_false_iff, decide_eq_false_iff_not]
    refine ⟨⟨⟨?_, ?_⟩, ?_⟩, ?_⟩ <;>
      (intro he; rw [he] at h; revert h; decide)
  all_goals (intro he; rw [he] at h; revert h; decide)

/-- Every rendered value starts with a character that is not whitespace, not a
closing bracket or brace, and not a comma. -/
theorem renderVal_head (ind : Nat) (j : Json) :
    ∃ c t, renderVal ind j = c :: t
      ∧ isWsChar c = false ∧ c ≠ (']') ∧ c ≠ ('}') ∧ c ≠ (',') := by
  cases j with
  | null =>
    exact ⟨('n'), [('u'), ('l'), ('l')], by simp [renderVal],
      by decide, by decide, by decide, by decide⟩
  | bool b =>
    cases b with
    | true =>
      exact ⟨('t'), [('r'), ('u'), ('e')], by simp [renderVal],
        by decide, by decide, by decide, by decide⟩
    | false =>
      exact ⟨('f'), [('a'), ('l'), ('s'), ('e')], by simp [renderVal],
        by decide, by decide, by decide, by decide⟩
  | str s =>
    exact ⟨('"'), s.data.flatMap escChar ++ [('"')], by simp [renderVal, renderStr],
      by decide, by decide, by decide, by decide⟩
  | arr es =>
    cases es with
    | nil =>
      exact ⟨('['), [(']')], by simp [renderVal],
        by decide, by decide, by decide, by decide⟩
    | cons e es2 =>
      exact ⟨('['), ('\n') :: (pad (ind + 2)
          ++ (renderItems (ind + 2) e es2 ++ ('\n') :: (pad ind ++ [(']')]))),
        by simp [renderVal], by decide, by decide, by decide, by decide⟩
  | obj fs =>
    match fs with
    | [] =>
      exact ⟨('{'), [('}')], by simp [renderVal],
        by decide, by decide, by decide, by decide⟩
    | (k, v) :: fs2 =>
      exact ⟨('{'), ('\n') :: (pad (ind + 2)
          ++ (renderFields (ind + 2) k v fs2 ++ ('\n') :: (pad ind ++ [('}')]))),
        by simp [renderVal], by decide, by decide, by decide, by decide⟩
  | num n =>
    by_cases hn : n < 0
    · refine ⟨('-'), natChars n.natAbs, ?_, by decide, by decide, by decide, by decide⟩
      simp [renderVal, intChars, hn]
    · obtain ⟨c0, t0, h0, hc0⟩ := natChars_head n.natAbs
      obtain ⟨hws, hrb, hcb, hcm, _⟩ := digit_facts hc0
      refine ⟨c0, t0, ?_, hws, hrb, hcb, hcm⟩
      simp [renderVal, intChars, hn, h0]

theorem skipWs_renderVal (ind : Nat) (j : Json) (x : List Char) :
    skipWs (renderVal ind j ++ x) = renderVal ind j ++ x := by
  obtain ⟨c, t, hren, hws, _, _, _⟩ := renderVal_head ind j
  rw [hren, List.cons_append, skipWs_cons_nonws hws]

theorem pad_length (n : Nat) : (pad n).length = n := by
  simp [pad]

theorem numDelim_cons {c : Char} (h : isDigitChar c = false) (x : List Char) :
    numDelim (c :: x) = true := by
  simp [numDelim, h]

/-- A rendered element list starts like its first rendered value. -/
theorem renderItems_head (ind : Nat) (e : Json) (es : List Json) :
    ∃ c t, renderItems ind e es = c :: t
      ∧ isWsChar c = false ∧ c ≠ (']') ∧ c ≠ ('}') ∧ c ≠ (',') := by
  obtain ⟨c, t, hren, hws, h1, h2, h3⟩ := renderVal_head ind e
  cases es with
  | nil => exact ⟨c, t, by simp only [renderItems, hren], hws, h1, h2, h3⟩
  | cons x xs =>
    refine ⟨c, t ++ (',') :: ('\n') :: (pad ind ++ renderItems ind x xs), ?_, hws, h1, h2, h3⟩
    simp only [renderItems, hren, List.cons_append]

theorem skipWs_renderItems (ind : Nat) (e : Json) (es : List Json) (x : List Char) :
    skipWs (renderItems ind e es ++ x) = renderItems ind e es ++ x := by
  obtain ⟨c, t, hren, hws, _, _, _⟩ := renderItems_head ind e es
  rw [hren, List.cons_append, skipWs_cons_nonws hws]

/-- Skipping the separator whitespace before an element list. -/
theorem skipWs_sep_items (ind : Nat) (e : Json) (es : List Json) (x : List Char) :
    skipWs (('\n') :: (pad ind ++ (renderItems ind e es ++ x)))
      = renderItems ind e es ++ x := by
  rw [skipWs_cons_ws (by decide), skipWs_pad]
  exact skipWs_renderItems ind e es x

/-- A rendered field list starts with the quote of its first key. -/
theorem renderFields_quote (ind : Nat) (k : String) (v : Json) (fs : List (String × Json)) :
    ∃ t, renderFields ind k v fs = ('"') :: t := by
  cases fs with
  | nil =>
    exact ⟨k.data.flatMap escChar ++ [('"')] ++ (':') :: (' ') :: renderVal ind v,
      by simp only [renderFields, renderStr, List.cons_append]⟩
  | cons p ps =>
    obtain ⟨k2, v2⟩ := p
    exact ⟨k.data.flatMap escChar ++ [('"')] ++ (':') :: (' ') :: renderVal ind v
        ++ (',') :: ('\n') :: (pad ind ++ renderFields ind k2 v2 ps),
      by simp only [renderFields, renderStr, List.cons_append]⟩

theorem skipWs_renderFields (ind : Nat) (k : String) (v : Json) (fs : List (String × Json))
    (x : List Char) :
    skipWs (renderFields ind k v fs ++ x) = renderFields ind k v fs ++ x := by
  obtain ⟨t, hren⟩ := renderFields_quote ind k v fs
  rw [hren, List.cons_append, skipWs_cons_nonws (by decide)]

/-- Skipping the separator whitespace before a field list. -/
theorem skipWs_sep_fields (ind : Nat) (k : String) (v : Json) (fs : List (String × Json))
    (x : List Char) :
    skipWs (('\n') :: (pad ind ++ (renderFields ind k v fs ++ x)))
      = renderFields ind k v fs ++ x := by
  rw [skipWs_cons_ws (by decide), skipWs_pad]
  exact skipWs_renderFields ind k v fs x

/-- The array branch of the parser reduces to parseElems once the element
input is known to start with a character other than the closing bracket. -/
theorem parseVal_arr_red (f : Nat) (X : List Char) (c2 : Char) (t2 : List Char)
    (hsk : skipWs X = c2 :: t2) (hne : c2 ≠ (']')) :
    parseVal (f + 1) (('[') :: X)
      = (match parseElems f (c2 :: t2) with
         | some (l, r3) => some (Json.arr l, r3)
         | none => none) := by
  rw [parseVal.eq_def]
  simp [skipWs_cons_nonws (by decide : isWsChar ('[') = false), hsk, hne]

/-- The object branch of the parser reduces to parseFieldList once the field
input is known to start with a character other than the closing brace. -/
theorem parseVal_obj_red (f : Nat) (X : List Char) (c2 : Char) (t2 : List Char)
    (hsk : skipWs X = c2 :: t2) (hne : c2 ≠ ('}')) :
    parseVal (f + 1) (('{') :: X)
      = (match parseFieldList f (c2 :: t2) with
         | some (l, r3) => some (Json.obj l, r3)
         | none => none) := by
  rw [parseVal.eq_def]
  simp [skipWs_cons_nonws (by decide : isWsChar ('{') = false), hsk, hne]

mutual

/-- Parsing a rendered value, followed by a remainder that cannot extend a
number, returns the value and the remainder untouched. -/
theorem rtVal : ∀ (j : Json) (ind fuel : Nat) (rest : List Char),
    (renderVal ind j).length < fuel → numDelim rest = true →
    parseVal fuel (renderVal ind j ++ rest) = some (j, rest)
  | .null, ind, fuel, rest, hf, _ => by
    cases fuel with
    | zero => exact absurd hf (by omega)
    | succ f =>
      have harg : renderVal ind Json.null ++ rest
          = ('n') :: (('u') :: (('l') :: (('l') :: rest))) := by
        simp [renderVal]
      rw [harg, parseVal.eq_def]
      simp [skipWs_cons_nonws (by decide : isWsChar ('n') = false)]
  | .bool true, ind, fuel, rest, hf, _ => by
    cases fuel with
    | zero => exact absurd hf (by omega)
    | succ f =>
      have harg : renderVal ind (Json.bool true) ++ rest
          = ('t') :: (('r') :: (('u') :: (('e') :: rest))) := by
        simp [renderVal]
      rw [harg, parseVal.eq_def]
      simp [skipWs_cons_nonws (by decide : isWsChar ('t') = false)]
  | .bool false, ind, fuel, rest, hf, _ => by
    cases fuel with
    | zero => exact absurd hf (by omega)
    | succ f =>
      have harg : renderVal ind (Json.bool false) ++ rest
          = ('f') :: (('a') :: (('l') :: (('s') :: (('e') :: rest)))) := by
        simp [renderVal]
      rw [harg, parseVal.eq_def]
      simp [skipWs_cons_nonws (by decide : isWsChar ('f') = false)]
  | .num n, ind, fuel, rest, hf, hr => by
    cases fuel with
    | zero => exact absurd hf (by omega)
    | succ f =>
      by_cases hn : n < 0
      · have harg : renderVal ind (Json.num n) ++ rest
            = ('-') :: (natChars n.natAbs ++ rest) := by
          simp [renderVal, intChars, hn]
        have hread : readInt (('-') :: (natChars n.natAbs ++ rest)) = some (n, rest) := by
          rw [show ('-') :: (natChars n.natAbs ++ rest) = intChars n ++ rest from by
            simp [intChars, hn]]
          exact readInt_intChars n rest hr
        rw [harg, parseVal.eq_def]
        simp [skipWs_cons_nonws (by decide : isWsChar ('-') = false), hread]
      · obtain ⟨c0, t0, h0, hc0⟩ := natChars_head n.natAbs
        obtain ⟨hws, _, _, _, _, hkn, hkt, hkf, hkq, hkb, hkc⟩ := digit_facts hc0
        have harg : renderVal ind (Json.num n) ++ rest = c0 :: (t0 ++ rest) := by
          simp [renderVal, intChars, hn, h0]
        have hread : readInt (c0 :: (t0 ++ rest)) = some (n, rest) := by
          rw [show c0 :: (t0 ++ rest) = intChars n ++ rest from by
            simp [intChars, hn, h0]]
          exact readInt_intChars n rest hr
        rw [harg, parseVal.eq_def]
        simp [skipWs_cons_nonws hws, hkn, hkt, hkf, hkq, hkb, hkc, hc0, hread]
  | .str s, ind, fuel, rest, hf, _ => by
    cases fuel with
    | zero => exact absurd hf (by omega)
    | succ f =>
      have harg : renderVal ind (Json.str s) ++ rest
          = ('"') :: (s.data.flatMap escChar ++ (('"') :: rest)) := by
        simp [renderVal, renderStr]
      rw [harg, parseVal.eq_def]
      simp [skipWs_cons_nonws (by decide : isWsChar ('"') = false), readStr_renderStr]
  | .arr [], ind, fuel, rest, hf, _ => by
    cases fuel with
    | zero => exact absurd hf (by omega)
    | succ f =>
      have harg : renderVal ind (Json.arr []) ++ rest = ('[') :: ((']') :: rest) := by
        simp [renderVal]
      rw [harg, parseVal.eq_def]
      simp [skipWs_cons_nonws (by decide : isWsChar ('[') = false),
        skipWs_cons_nonws (by decide : isWsChar (']') = false)]
  | .obj [], ind, fuel, rest, hf, _ => by
    cases fuel with
    | zero => exact absurd hf (by omega)
    | succ f =>
      have harg : renderVal ind (Json.obj []) ++ rest = ('{') :: (('}') :: rest) := by
        simp [renderVal]
      rw [harg, parseVal.eq_def]
      simp [skipWs_cons_nonws (by decide : isWsChar ('{') = false),
        skipWs_cons_nonws (by decide : isWsChar ('}') = false)]
  | .arr (e :: es), ind, fuel, rest, hf, _ => by
    cases fuel with
    | zero => exact absurd hf (by omega)
    | succ f =>
      obtain ⟨c2, t2, hit, hws2, hrb2, _, _⟩ := renderItems_head (ind + 2) e es
      have harg : renderVal ind (Json.arr (e :: es)) ++ rest
          = ('[') :: (('\n') :: (pad (ind + 2) ++ (renderItems (ind + 2) e es
              ++ (('\n') :: (pad ind ++ ((']') :: rest)))))) := by
        simp [renderVal]
      simp only [renderVal, List.length_cons, List.length_append, pad_length] at hf
      have hrec := rtItems e es (ind + 2) f (('\n') :: (pad ind ++ ((']') :: rest))) rest
        (by omega)
        (by rw [skipWs_cons_ws (by decide), skipWs_pad,
                skipWs_cons_nonws (by decide : isWsChar (']') = false)])
        (numDelim_cons (by decide) _)
      have hsk : skipWs (('\n') :: (pad (ind + 2) ++ (renderItems (ind + 2) e es
          ++ (('\n') :: (pad ind ++ ((']') :: rest))))))
          = c2 :: (t2 ++ (('\n') :: (pad ind ++ ((']') :: rest)))) := by
        rw [skipWs_sep_items, hit, List.cons_append]
      rw [harg, parseVal_arr_red f _ c2 _ hsk hrb2]
      rw [show c2 :: (t2 ++ (('\n') :: (pad ind ++ ((']') :: rest))))
          = renderItems (ind + 2) e es ++ (('\n') :: (pad ind ++ ((']') :: rest))) from by
        rw [hit, List.cons_append]]
      rw [hrec]
  | .obj ((k, v) :: fs), ind, fuel, rest, hf, _ => by
    cases fuel with
    | zero => exact absurd hf (by omega)
    | succ f =>
      obtain ⟨t2, hit⟩ := renderFields_quote (ind + 2) k v fs
      have harg : renderVal ind (Json.obj ((k, v) :: fs)) ++ rest
          = ('{') :: (('\n') :: (pad (ind + 2) ++ (renderFields (ind + 2) k v fs
              ++ (('\n') :: (pad ind ++ (('}') :: rest)))))) := by
        simp [renderVal]
      simp only [renderVal, List.length_cons, List.length_append, pad_length] at hf
      have hrec := rtFields k v fs (ind + 2) f (('\n') :: (pad ind ++ (('}') :: rest))) rest
        (by omega)
        (by rw [skipWs_cons_ws (by decide), skipWs_pad,
                skipWs_cons_nonws (by decide : isWsChar ('}') = false)])
        (numDelim_cons (by decide) _)
      have hsk : skipWs (('\n') :: (pad (ind + 2) ++ (renderFields (ind + 2) k v fs
          ++ (('\n') :: (pad ind ++ (('}') :: rest))))))
          = ('"') :: (t2 ++ (('\n') :: (pad ind ++ (('}') :: rest)))) := by
        rw [skipWs_sep_fields, hit, List.cons_append]
      rw [harg, parseVal_obj_red f _ ('"') _ hsk (by decide)]
      rw [show ('"') :: (t2 ++ (('\n') :: (pad ind ++ (('}') :: rest))))
          = renderFields (ind + 2) k v fs ++ (('\n') :: (pad ind ++ (('}') :: rest))) from by
        rw [hit, List.cons_append]]
      rw [hrec]
termination_by j => sizeOf j

/-- Parsing a rendered element list up to its closing bracket. -/
theorem rtItems : ∀ (e : Json) (es : List Json) (ind fuel : Nat) (tl rest : List Char),
    (renderItems ind e es).length + 1 < fuel →
    skipWs tl = (']') :: rest → numDelim tl = true →
    parseElems fuel (renderItems ind e es ++ tl) = some (e :: es, rest)
  | e, [], ind, fuel, tl, rest, hf, hskip, hnum => by
    cases fuel with
    | zero => exact absurd hf (by omega)
    | succ f =>
      simp only [renderItems] at hf
      have hv := rtVal e ind f tl (by omega) hnum
      have harg : renderItems ind e [] ++ tl = renderVal ind e ++ tl := by
        simp only [renderItems]
      rw [harg, parseElems.eq_def]
      simp [hv, hskip]
  | e, x :: xs, ind, fuel, tl, rest, hf, hskip, hnum => by
    cases fuel with
    | zero => exact absurd hf (by omega)
    | succ f =>
      simp only [renderItems, List.length_append, List.length_cons, pad_length] at hf
      have hv := rtVal e ind f ((',') :: (('\n') :: (pad ind ++ (renderItems ind x xs ++ tl))))
        (by omega) (numDelim_cons (by decide) _)
      have hrec := rtItems x xs ind f tl rest (by omega) hskip hnum
      have harg : renderItems ind e (x :: xs) ++ tl
          = renderVal ind e
            ++ ((',') :: (('\n') :: (pad ind ++ (renderItems ind x xs ++ tl)))) := by
        simp only [renderItems, List.cons_append, List.append_assoc]
      rw [harg, parseElems.eq_def]
      simp [hv, skipWs_cons_nonws (by decide : isWsChar (',') = false),
        skipWs_sep_items, hrec]
termination_by e es => sizeOf e + sizeOf es

/-- Parsing a rendered field list up to its closing brace. -/
theorem rtFields : ∀ (k : String) (v : Json) (fs : List (String × Json))
    (ind fuel : Nat) (tl rest : List Char),
    (renderFields ind k v fs).length + 1 < fuel →
    skipWs tl = ('}') :: rest → numDelim tl = true →
    parseFieldList fuel (renderFields ind k v fs ++ tl) = some ((k, v) :: fs, rest)
  | k, v, [], ind, fuel, tl, rest, hf, hskip, hnum => by
    cases fuel with
    | zero => exact absurd hf (by omega)
    | succ f =>
      simp only [renderFields, renderStr, List.length_append, List.length_cons] at hf
      have hv := rtVal v ind f tl (by omega) hnum
      have harg : renderFields ind k v [] ++ tl
          = ('"') :: (k.data.flatMap escChar
              ++ (('"') :: ((':') :: ((' ') :: (renderVal ind v ++ tl))))) := by
        simp [renderFields, renderStr]
      rw [harg, parseFieldList.eq_def]
      simp [skipWs_cons_nonws (by decide : isWsChar ('"') = false),
        readStr_renderStr,
        skipWs_cons_nonws (by decide : isWsChar (':') = false),
        skipWs_cons_ws (by decide : isWsChar (' ') = true),
        skipWs_renderVal, hv, hskip]
  | k, v, (k2, v2) :: fs2, ind, fuel, tl, rest, hf, hskip, hnum => by
    cases fuel with
    | zero => exact absurd hf (by omega)
    | succ f =>
      simp only [renderFields, renderStr, List.length_append, List.length_cons,
        pad_length] at hf
      have hv := rtVal v ind f
        ((',') :: (('\n') :: (pad ind ++ (renderFields ind k2 v2 fs2 ++ tl))))
        (by omega) (numDelim_cons (by decide) _)
      have hrec := rtFields k2 v2 fs2 ind f tl rest (by omega) hskip hnum
      have harg : renderFields ind k v ((k2, v2) :: fs2) ++ tl
          = ('"') :: (k.data.flatMap escChar
              ++ (('"') :: ((':') :: ((' ') :: (renderVal ind v
                ++ ((',') :: (('\n') :: (pad ind
                  ++ (renderFields ind k2 v2 fs2 ++ tl))))))))) := by
        simp [renderFields, renderStr]
      rw [harg, parseFieldList.eq_def]
      simp [skipWs_cons_nonws (by decide : isWsChar ('"') = false),
        readStr_renderStr,
        skipWs_cons_nonws (by decide : isWsChar (':') = false),
        skipWs_cons_ws (by decide : isWsChar (' ') = true),
        skipWs_renderVal, hv,
        skipWs_cons_nonws (by decide : isWsChar (',') = false),
        skipWs_sep_fields, hrec]
termination_by _ v fs => sizeOf v + sizeOf fs

end

/-- The JSON codec round trip: JSON.parse recovers exactly the value that
JSON.stringify(value, null, 2) serialized. -/
theorem parseJson_stringifyJson (j : Json) : parseJson (stringifyJson j) = some j := by
  unfold parseJson stringifyJson
  have h := rtVal j 0 ((renderVal 0 j).length + 1) [] (by omega) (by rfl)
  rw [List.append_nil] at h
  simp [h, skipWs]

theorem getField_cons_self (k : String) (v : Json) (fs : List (String × Json)) :
    getField ((k, v) :: fs) k = some v := by
  simp [getField]

theorem getField_cons_ne {k0 k : String} (h : ¬ k0 = k) (v : Json)
    (fs : List (String × Json)) :
    getField ((k0, v) :: fs) k = getField fs k := by
  simp [getField, h]

theorem getField_optEntry_ne {k0 k : String} (h : ¬ k0 = k) (o : Option Json)
    (fs : List (String × Json)) :
    getField (optEntry k0 o ++ fs) k = getField fs k := by
  cases o with
  | none => simp [optEntry]
  | some v => simp [optEntry, getField_cons_ne h]

theorem getField_optEntry_self (k : String) (o : Option Json) (fs : List (String × Json))
    (hnone : getField fs k = none) :
    getField (optEntry k o ++ fs) k = o := by
  cases o with
  | none => simp [optEntry, hnone]
  | some v => simp [optEntry, getField_cons_self]

theorem statusOfString_statusString (st : Status) :
    statusOfString (statusString st) = some st := by
  cases st <;> rfl

theorem severityOfString_severityString (sv : Severity) :
    severityOfString (severityString sv) = some sv := by
  cases sv <;> rfl

theorem asNat_natCast (k : Nat) : asNat (Json.num (k : Int)) = some k := by
  simp [asNat]

theorem sourceOfJson_toJson (s : Source) : sourceOfJson (sourceToJson s) = some s := by
  obtain ⟨st, lb, url⟩ := s
  cases url with
  | none => simp [sourceToJson, sourceOfJson, optEntry, getField, asObj, asStr]
  | some u => simp [sourceToJson, sourceOfJson, optEntry, getField, asObj, asStr]

theorem decodeList_sources (l : List Source) :
    decodeList sourceOfJson (l.map sourceToJson) = some l := by
  induction l with
  | nil => rfl
  | cons s t ih => simp [decodeList, sourceOfJson_toJson, ih]

set_option maxHeartbeats 1600000 in
theorem checkOfJson_toJson (c : Check) : checkOfJson (checkToJson c) = some c := by
  obtain ⟨id, title, status, severity, description, hint, evidence, sources, duration⟩ := c
  cases description <;> cases hint <;> cases evidence <;> cases sources <;> cases duration <;>
    simp [checkToJson, checkOfJson, optEntry, getField, asObj, asStr, asArr,
      asNat_natCast, statusOfString_statusString, severityOfString_severityString,
      decodeList_sources]

theorem decodeList_checks (l : List Check) :
    decodeList checkOfJson (l.map checkToJson) = some l := by
  induction l with
  | nil => rfl
  | cons c t ih => simp [decodeList, checkOfJson_toJson, ih]

theorem summaryOfJson_toJson (s : Summary) : summaryOfJson (summaryToJson s) = some s := by
  obtain ⟨t, p, fl, w, sk⟩ := s
  simp [summaryToJson, summaryOfJson, getField, asObj, asNat_natCast]

/-- The findings decoder inverts the findings serializer, field for field. -/
theorem findingsOfJson_toJson (f : Findings) : findingsOfJson (findingsToJson f) = some f := by
  obtain ⟨version, target, timestamp, runId, checks, summary, metadata⟩ := f
  cases runId <;> cases summary <;> cases metadata <;>
    simp [findingsToJson, findingsOfJson, optEntry, getField, asObj, asStr, asArr,
      decodeList_checks, summaryOfJson_toJson]

/-- The four per-status tallies of a check list add up to its length. -/
theorem status_counts_sum (checks : List Check) :
    checks.countP (fun c => decide (c.status = Status.pass))
      + checks.countP (fun c => decide (c.status = Status.fail))
      + checks.countP (fun c => decide (c.status = Status.warn))
      + checks.countP (fun c => decide (c.status = Status.skipped))
    = checks.length := by
  induction checks with
  | nil => rfl
  | cons c t ih =>
    rcases h : c.status <;> simp [List.countP_cons, h] <;> omega

/-- Events strictly before the completion phases leave the message list
untouched. -/
theorem processEvent_keeps_messages (st : ChatTurnState) (ev : StreamEvent)
    (h : phaseRank ev ≤ 4) : (processEvent st ev).messages = st.messages := by
  cases ev with
  | phase p m =>
    simp only [processEvent]
    split
    · rfl
    · split <;> rfl
  | scanning t hl => cases t <;> rfl
  | selected t => cases t <;> rfl
  | executing =>
    simp only [processEvent]
    split <;> rfl
  | tool_complete t s =>
    simp only [processEvent]
    split <;> rfl
  | complete c tcs => exact absurd h (by simp [phaseRank])
  | errorEvent e => exact absurd h (by simp [phaseRank])

theorem processEvents_keeps_messages (evs : List StreamEvent) :
    ∀ st : ChatTurnState, (∀ e ∈ evs, phaseRank e ≤ 4) →
      (processEvents st evs).messages = st.messages := by
  induction evs with
  | nil =>
    intro st _
    rfl
  | cons e t ih =>
    intro st h
    have h2 : (processEvents st (e :: t)) = processEvents (processEvent st e) t := by
      simp [processEvents]
    rw [h2, ih (processEvent st e) (fun x hx => h x (by simp [hx])),
      processEvent_keeps_messages st e (h e (by simp))]

/-- Processing a complete event carrying a one-element tool_calls array
appends exactly the assembled assistant message. -/
theorem processEvent_complete_messages (st : ChatTurnState) (c : Option String)
    (tc : ToolCall) :
    (processEvent st (StreamEvent.complete c (some [tc]))).messages
      = st.messages ++ [mkAssistant c (some [tc])] := by
  simp [processEvent, mkAssistant]

/-- Gluing lemma: two phase-ordered event segments separated by a rank bound
concatenate into a phase-ordered stream. -/
theorem pairwise_rank_append (k : Nat) {l1 l2 : List StreamEvent}
    (h1 : l1.Pairwise (fun a b => phaseRank a ≤ phaseRank b))
    (h2 : l2.Pairwise (fun a b => phaseRank a ≤ phaseRank b))
    (hb1 : ∀ a ∈ l1, phaseRank a ≤ k) (hb2 : ∀ b ∈ l2, k ≤ phaseRank b) :
    (l1 ++ l2).Pairwise (fun a b => phaseRank a ≤ phaseRank b) := by
  rw [List.pairwise_append]
  exact ⟨h1, h2, fun a ha b hb => le_trans (hb1 a ha) (hb2 b hb)⟩

/-! The claims. -/

/-- C5. Round trip: for every findings object, serializing it (as the Export
action does via JSON.stringify with a two-space indent) and parsing the result
back (as the file loader does via JSON.parse) yields an object field for field
equal to the original: the parsed JSON value is exactly the serialized value
of the findings object, and decoding that value recovers every field of the
original. -/
theorem export_then_load_round_trip (f : Findings) :
    parseJson (exportBundle f) = some (findingsToJson f)
      ∧ findingsOfJson (findingsToJson f) = some f :=
  ⟨by rw [exportBundle]; exact parseJson_stringifyJson (findingsToJson f),
   findingsOfJson_toJson f⟩

/-- C1 counterexample. A findings file whose stored summary (total 1)
disagrees with its empty checks array is accepted by loadFindings and
displayed with the stored total, so the displayed findings object violates
summary.total = checks.length. -/
theorem loaded_summary_can_disagree :
    loadFindings (findingsToJson mismatchedSummaryFindings) = some mismatchedSummaryFindings
    ∧ (summaryCardValues mismatchedSummaryFindings).1 = 1
    ∧ mismatchedSummaryFindings.checks.length = 0
    ∧ ¬ (1 : Nat) = 0 := by
  refine ⟨?_, rfl, rfl, by decide⟩
  simp [loadFindings, findingsOfJson_toJson, mismatchedSummaryFindings]

/-- C1 (amended). Summaries computed by calculateSummary satisfy both spec
equations, total = checks.length and pass + fail + warn + skipped = total,
and loadFindings establishes them for every loaded object that carries no
summary of its own; an object loaded with a pre-existing summary keeps it
verbatim and may violate the equations. -/
theorem summary_equations_hold_for_calculated :
    ∀ (checks : List Check) (j : Json) (f : Findings),
      ((calculateSummary checks).total = checks.length
        ∧ (calculateSummary checks).pass + (calculateSummary checks).fail
            + (calculateSummary checks).warn + (calculateSummary checks).skipped
          = (calculateSummary checks).total)
      ∧ (findingsOfJson j = some f → f.summary = none →
          loadFindings j = some { f with summary := some (calculateSummary f.checks) }
          ∧ (summaryCardValues { f with summary := some (calculateSummary f.checks) }).1
            = f.checks.length) := by
  intro checks j f
  refine ⟨⟨rfl, status_counts_sum checks⟩, fun hj hsum => ⟨?_, ?_⟩⟩
  · simp [loadFindings, hj, hsum]
  · simp [summaryCardValues, calculateSummary]

/-- C1 witness. -/
theorem summary_equations_hold_for_calculated_witness :
    loadFindings (findingsToJson noSummaryFindings)
      = some { noSummaryFindings with
                 summary := some (calculateSummary noSummaryFindings.checks) }
    ∧ (summaryCardValues
        { noSummaryFindings with
            summary := some (calculateSummary noSummaryFindings.checks) }).1
      = noSummaryFindings.checks.length :=
  (summary_equations_hold_for_calculated noSummaryFindings.checks
      (findingsToJson noSummaryFindings) noSummaryFindings).2
    (findingsOfJson_toJson _) rfl

/-- C10. When a loaded findings object already carries a summary, loadFindings
keeps the object exactly as decoded, whatever the summary counts say about
the checks array, and the summary card grid displays exactly the stored
fields with no recomputation; a summary is computed from the checks only
when the object carries none. -/
theorem existing_summary_kept_verbatim :
    ∀ (j : Json) (f : Findings) (s : Summary),
      findingsOfJson j = some f →
      (f.summary = some s →
        loadFindings j = some f
        ∧ summaryCardValues f = (s.total, s.pass, s.fail, s.warn, s.skipped))
      ∧ (f.summary = none →
        loadFindings j = some { f with summary := some (calculateSummary f.checks) }) := by
  intro j f s hj
  refine ⟨fun hsum => ⟨?_, ?_⟩, fun hsum => ?_⟩
  · simp [loadFindings, hj, hsum]
  · simp [summaryCardValues, hsum]
  · simp [loadFindings, hj, hsum]

/-- C10 witness: a stored summary with total 5 over a single check is kept
and displayed verbatim. -/
theorem existing_summary_kept_verbatim_witness :
    loadFindings (findingsToJson storedSummaryFindings) = some storedSummaryFindings
    ∧ summaryCardValues storedSummaryFindings = (5, 0, 0, 0, 0) :=
  (existing_summary_kept_verbatim (findingsToJson storedSummaryFindings)
      storedSummaryFindings
      { total := 5, pass := 0, fail := 0, warn := 0, skipped := 0 }
      (findingsOfJson_toJson _)).1 rfl

/-- C2. For a turn in which the model selects a tool, the orchestrated event
stream (server side modelled from the spec) is emitted, and hence processed
by the client fold, in phase order analyzing, scanning, selected, executing,
tool complete, complete; and processing it appends exactly one assistant
message carrying a tool_calls array of length at least one. -/
theorem orchestrated_phases_ordered_and_attached :
    ∀ (catalog : List ToolInfo) (chosen : ToolInfo) (result : Json) (success : Bool)
      (content : String) (st : ChatTurnState),
      (orchestratorStream catalog chosen result success content).Pairwise
          (fun a b => phaseRank a ≤ phaseRank b)
      ∧ ∃ m : Message,
          (processEvents st (orchestratorStream catalog chosen result success content)).messages
            = st.messages ++ [m]
          ∧ m.role = Role.assistant
          ∧ ∃ l, m.toolCalls = some l ∧ 1 ≤ l.length := by
  intro catalog chosen result success content st
  have hsplit : orchestratorStream catalog chosen result success content
      = ([StreamEvent.phase (some ("analyzing")) (some ("Analyzing your request..."))]
          ++ catalog.map (fun t =>
              StreamEvent.scanning (some t) (some (decide (t.id = chosen.id))))
          ++ [StreamEvent.selected (some chosen), StreamEvent.executing,
              StreamEvent.tool_complete (some chosen) (some success)])
        ++ [StreamEvent.complete (some content)
              (some [{ tool := chosen.id, result := result }])] := by
    simp [orchestratorStream]
  have hpre : ∀ e ∈ ([StreamEvent.phase (some ("analyzing"))
          (some ("Analyzing your request..."))]
        ++ catalog.map (fun t =>
            StreamEvent.scanning (some t) (some (decide (t.id = chosen.id))))
        ++ [StreamEvent.selected (some chosen), StreamEvent.executing,
            StreamEvent.tool_complete (some chosen) (some success)]),
      phaseRank e ≤ 4 := by
    intro e he
    simp only [List.mem_append, List.mem_cons, List.mem_map,
      List.not_mem_nil, or_false] at he
    rcases he with (rfl | ⟨x, _, rfl⟩) | (rfl | rfl | rfl)
    all_goals simp [phaseRank]
  have hM : ∀ l : List ToolInfo, (l.map (fun t =>
      StreamEvent.scanning (some t) (some (decide (t.id = chosen.id))))).Pairwise
      (fun a b => phaseRank a ≤ phaseRank b) := by
    intro l
    rw [List.pairwise_map]
    induction l with
    | nil => exact List.Pairwise.nil
    | cons x xs ih => exact List.pairwise_cons.mpr ⟨fun b _ => by simp [phaseRank], ih⟩
  constructor
  · rw [hsplit]
    refine pairwise_rank_append 5 ?_ (by simp)
        (fun a ha => le_trans (hpre a ha) (by decide)) ?_
    · refine pairwise_rank_append 2 ?_ ?_ ?_ ?_
      · refine pairwise_rank_append 1 (by simp) (hM catalog) ?_ ?_
        · intro a ha
          simp only [List.mem_cons, List.not_mem_nil, or_false] at ha
          subst ha
          simp [phaseRank]
        · intro b hb
          rw [List.mem_map] at hb
          obtain ⟨x, _, rfl⟩ := hb
          simp [phaseRank]
      · simp [List.pairwise_cons, phaseRank]
      · intro a ha
        rw [List.mem_append] at ha
        rcases ha with ha | ha
        · simp only [List.mem_cons, List.not_mem_nil, or_false] at ha
          subst ha
          simp [phaseRank]
        · rw [List.mem_map] at ha
          obtain ⟨x, _, rfl⟩ := ha
          simp [phaseRank]
      · intro b hb
        simp only [List.mem_cons, List.not_mem_nil, or_false] at hb
        rcases hb with rfl | rfl | rfl
        all_goals simp [phaseRank]
    · intro b hb
      simp only [List.mem_cons, List.not_mem_nil, or_false] at hb
      subst hb
      simp [phaseRank]
  · refine ⟨mkAssistant (some content)
        (some [{ tool := chosen.id, result := result }]), ?_, rfl, ?_⟩
    · rw [hsplit]
      have hfold : processEvents st (([StreamEvent.phase (some ("analyzing"))
              (some ("Analyzing your request..."))]
            ++ catalog.map (fun t =>
                StreamEvent.scanning (some t) (some (decide (t.id = chosen.id))))
            ++ [StreamEvent.selected (some chosen), StreamEvent.executing,
                StreamEvent.tool_complete (some chosen) (some success)])
          ++ [StreamEvent.complete (some content)
                (some [{ tool := chosen.id, result := result }])])
          = processEvent (processEvents st ([StreamEvent.phase (some ("analyzing"))
              (some ("Analyzing your request..."))]
            ++ catalog.map (fun t =>
                StreamEvent.scanning (some t) (some (decide (t.id = chosen.id))))
            ++ [StreamEvent.selected (some chosen), StreamEvent.executing,
                StreamEvent.tool_complete (some chosen) (some success)]))
            (StreamEvent.complete (some content)
              (some [{ tool := chosen.id, result := result }])) := by
        simp [processEvents]
      rw [hfold, processEvent_complete_messages, processEvents_keeps_messages _ st hpre]
    · exact ⟨[{ tool := chosen.id, result := result }], rfl, by simp⟩

/-- C3. A tool execution that throws produces a check with status fail rather
than crashing the run (the server-side executor, modelled from the spec), and
on the client a tool_complete event with success false renders the selected
tool as an error-status execution while the turn continues: a subsequent
complete event still appends the final assistant answer. -/
theorem tool_failure_becomes_failed_result :
    ∀ (toolId msg : String) (st : ChatTurnState) (sel : ToolExecution)
      (ti : ToolInfo) (content : Option String),
      (1 ≤ (runToolSafely toolId (Except.error msg)).length
        ∧ ∀ c ∈ runToolSafely toolId (Except.error msg), c.status = Status.fail)
      ∧ (st.selectedTool = some sel →
          (processEvent st (StreamEvent.tool_complete (some ti) (some false))).toolExecutions
            = [{ sel with status := ExecStatus.error }]
          ∧ (processEvent
                (processEvent st (StreamEvent.tool_complete (some ti) (some false)))
                (StreamEvent.complete content none)).messages
            = st.messages ++ [mkAssistant content none]) := by
  intro toolId msg st sel ti content
  refine ⟨⟨by simp [runToolSafely], ?_⟩, fun hsel => ⟨?_, ?_⟩⟩
  · intro c hc
    simp only [runToolSafely, List.mem_singleton] at hc
    subst hc
    rfl
  · simp [processEvent, hsel]
  · simp [processEvent, hsel, mkAssistant]

/-- C3 witness. -/
theorem tool_failure_becomes_failed_result_witness :
    (1 ≤ (runToolSafely ("validate_cluster") (Except.error ("kubectl crashed"))).length
      ∧ ∀ c ∈ runToolSafely ("validate_cluster") (Except.error ("kubectl crashed")),
          c.status = Status.fail)
    ∧ ((processEvent selectedToolState
          (StreamEvent.tool_complete (some connectivityTool) (some false))).toolExecutions
        = [{ validateExec with status := ExecStatus.error }]
      ∧ (processEvent
            (processEvent selectedToolState
              (StreamEvent.tool_complete (some connectivityTool) (some false)))
            (StreamEvent.complete (some ("done")) none)).messages
        = selectedToolState.messages ++ [mkAssistant (some ("done")) none]) :=
  ⟨(tool_failure_becomes_failed_result ("validate_cluster") ("kubectl crashed")
      selectedToolState validateExec connectivityTool (some ("done"))).1,
   (tool_failure_becomes_failed_result ("validate_cluster") ("kubectl crashed")
      selectedToolState validateExec connectivityTool (some ("done"))).2 rfl⟩

/-- C4. Each send issues the streaming request once; exactly when the
streaming attempt fails, a single fallback call to the non-streaming chat
endpoint follows; a failing fallback turns the assistant turn into the
apology message; and no endpoint is ever requested more than once in a
turn. -/
theorem stream_failure_single_fallback :
    ∀ (st0 : ChatTurnState) (input : String) (stream : StreamResult)
      (fallback : FallbackResult),
      ¬ jsTrim input = ("") →
      ((sendMessage st0 input stream fallback).2
          = (match stream with
             | .delivered _ => [Request.streamChat]
             | .failedAfter _ _ => [Request.streamChat, Request.chat]))
      ∧ (sendMessage st0 input stream fallback).2.count Request.chat ≤ 1
      ∧ (sendMessage st0 input stream fallback).2.count Request.streamChat ≤ 1
      ∧ (∀ evs em m, stream = StreamResult.failedAfter evs em →
          fallback = FallbackResult.netError m →
          ((sendMessage st0 input stream fallback).1.messages).getLast?
            = some { role := Role.assistant, content := apologyText em,
                     toolCalls := none }) := by
  intro st0 input stream fallback hne
  cases stream with
  | delivered events =>
    refine ⟨?_, ?_, ?_, ?_⟩
    · simp [sendMessage, hne]
    · simp [sendMessage, hne, List.count_cons, List.count_nil]
    · simp [sendMessage, hne, List.count_cons, List.count_nil]
    · intro evs em m hcontra
      exact absurd hcontra (by simp)
  | failedAfter events errMsg =>
    cases fallback with
    | response success content toolCalls errorMsg hint =>
      refine ⟨?_, ?_, ?_, ?_⟩
      · by_cases hs : success = true
        · cases toolCalls with
          | none => simp [sendMessage, hne, hs]
          | some tcs => by_cases hl : 0 < tcs.length <;> simp [sendMessage, hne, hs, hl]
        · simp [sendMessage, hne, hs]
      · by_cases hs : success = true
        · cases toolCalls with
          | none => simp [sendMessage, hne, hs, List.count_cons, List.count_nil]
          | some tcs =>
            by_cases hl : 0 < tcs.length <;>
              simp [sendMessage, hne, hs, hl, List.count_cons, List.count_nil]
        · simp [sendMessage, hne, hs, List.count_cons, List.count_nil]
      · by_cases hs : success = true
        · cases toolCalls with
          | none => simp [sendMessage, hne, hs, List.count_cons, List.count_nil]
          | some tcs =>
            by_cases hl : 0 < tcs.length <;>
              simp [sendMessage, hne, hs, hl, List.count_cons, List.count_nil]
        · simp [sendMessage, hne, hs, List.count_cons, List.count_nil]
      · intro evs em m _ hcontra
        exact absurd hcontra (by simp)
    | netError m0 =>
      refine ⟨?_, ?_, ?_, ?_⟩
      · simp [sendMessage, hne]
      · simp [sendMessage, hne, List.count_cons, List.count_nil]
      · simp [sendMessage, hne, List.count_cons, List.count_nil]
      · intro evs em m heq hm
        cases heq
        cases hm
        simp [sendMessage, hne]

/-- C4 witness. -/
theorem stream_failure_single_fallback_witness :
    ((sendMessage emptyTurnState ("hello") (StreamResult.failedAfter [] ("boom"))
        (FallbackResult.netError ("down"))).2
      = [Request.streamChat, Request.chat])
    ∧ ((sendMessage emptyTurnState ("hello") (StreamResult.failedAfter [] ("boom"))
        (FallbackResult.netError ("down"))).1.messages).getLast?
      = some { role := Role.assistant, content := apologyText ("boom"),
               toolCalls := none } :=
  ⟨(stream_failure_single_fallback emptyTurnState ("hello")
      (StreamResult.failedAfter [] ("boom")) (FallbackResult.netError ("down"))
      (by decide)).1,
   (stream_failure_single_fallback emptyTurnState ("hello")
      (StreamResult.failedAfter [] ("boom")) (FallbackResult.netError ("down"))
      (by decide)).2.2.2 [] ("boom") ("down") rfl rfl⟩

/-- C7 counterexample. A complete event with no tool calls and model content
carrying surrounding whitespace: the assistant message stores that content,
but the rendering trims it, so the displayed content differs from the
returned content. -/
theorem displayed_content_trimmed_mismatch :
    (processEvent emptyTurnState (StreamEvent.complete (some (" hello ")) none)).messages
      = [{ role := Role.assistant, content := (" hello "), toolCalls := none }]
    ∧ displayedContent { role := Role.assistant, content := (" hello "), toolCalls := none }
      = some ("hello")
    ∧ ¬ some (" hello ") = some ("hello") := by
  refine ⟨?_, by decide, by decide⟩
  simp [processEvent, emptyTurnState, orDefault]

/-- C7 (amended). The complete handler stores nonempty model content on the
assistant message unchanged; the renderer then strips tool_call-tagged spans
and trims surrounding whitespace, so content with no tag spans and no
surrounding whitespace is displayed exactly as returned. -/
theorem nonempty_content_stored_unchanged :
    ∀ (st : ChatTurnState) (c : String),
      ¬ c = ("") →
      (processEvent st (StreamEvent.complete (some c) none)).messages
        = st.messages ++ [{ role := Role.assistant, content := c, toolCalls := none }]
      ∧ (removeSpansAux c.data.length c.data = c.data → jsTrim c = c →
          displayedContent { role := Role.assistant, content := c, toolCalls := none }
            = some c) := by
  intro st c hc
  constructor
  · simp [processEvent, orDefault, hc]
  · intro hspans htrim
    simp only [displayedContent, cleanContent]
    rw [if_neg hc, hspans]
    have hmk : String.mk c.data = c := rfl
    rw [hmk, htrim, if_neg hc]

/-- C7 witness. -/
theorem nonempty_content_stored_unchanged_witness :
    (processEvent emptyTurnState (StreamEvent.complete (some ("All good.")) none)).messages
      = emptyTurnState.messages
        ++ [{ role := Role.assistant, content := ("All good."), toolCalls := none }]
    ∧ displayedContent { role := Role.assistant, content := ("All good."), toolCalls := none }
      = some ("All good.") :=
  ⟨(nonempty_content_stored_unchanged emptyTurnState ("All good.") (by decide)).1,
   (nonempty_content_stored_unchanged emptyTurnState ("All good.") (by decide)).2
     (by decide) (by decide)⟩

/-- C9 counterexample. In the canonical connectivity turn the highlighted
scanning event already shows the selected tool as success, and the following
selected event resets it to running: the status of that tool execution moves
backwards, refuting the claimed forward-only lifecycle. -/
theorem highlighted_scan_status_moves_backwards :
    execStatusOf (processEvents emptyTurnState (List.take 2 connectivityTurnEvents))
        ("run_connectivity_check") = some ExecStatus.success
    ∧ execStatusOf (processEvents emptyTurnState (List.take 3 connectivityTurnEvents))
        ("run_connectivity_check") = some ExecStatus.running
    ∧ ¬ statusRank ExecStatus.success ≤ statusRank ExecStatus.running := by
  refine ⟨by decide, by decide, by decide⟩

/-- C9 (amended). The tool execution list, the completion flag and the
per-turn locals are reset at the start of every send; the selected tool is
listed as running at selection and while executing, and moves to success or
error at tool_complete according to the success flag; but the scanning
visualization can show a highlighted tool as success before the selected
event resets it to running, so statuses are not monotone over a turn. -/
theorem turn_reset_and_selected_tool_lifecycle :
    ∀ (st0 st : ChatTurnState) (input : String) (t : ToolInfo) (sel : ToolExecution)
      (succ : Option Bool),
      ((startTurn st0 input).toolExecutions = []
        ∧ (startTurn st0 input).executionComplete = false
        ∧ (startTurn st0 input).scannedTools = []
        ∧ (startTurn st0 input).selectedTool = none)
      ∧ ((processEvent st (StreamEvent.selected (some t))).toolExecutions
          = [{ toolId := t.id, toolName := t.name, icon := t.icon,
               status := ExecStatus.running }]
        ∧ (processEvent st (StreamEvent.selected (some t))).selectedTool
          = some { toolId := t.id, toolName := t.name, icon := t.icon,
                   status := ExecStatus.running })
      ∧ (st.selectedTool = some sel →
          (processEvent st StreamEvent.executing).toolExecutions
            = [{ sel with status := ExecStatus.running }]
          ∧ (processEvent st (StreamEvent.tool_complete (some t) succ)).toolExecutions
            = [{ sel with status := (if succ = some true then ExecStatus.success
                  else ExecStatus.error) }]) := by
  intro st0 st input t sel succ
  refine ⟨⟨rfl, rfl, rfl, rfl⟩, ⟨rfl, rfl⟩, fun hsel => ⟨?_, ?_⟩⟩
  · simp [processEvent, hsel]
  · simp [processEvent, hsel]

/-- C9 witness. -/
theorem turn_reset_and_selected_tool_lifecycle_witness :
    ((startTurn emptyTurnState ("validate")).toolExecutions = []
      ∧ (startTurn emptyTurnState ("validate")).executionComplete = false)
    ∧ (processEvent selectedToolState
        (StreamEvent.tool_complete (some connectivityTool) (some false))).toolExecutions
      = [{ validateExec with status := ExecStatus.error }] :=
  ⟨⟨(turn_reset_and_selected_tool_lifecycle emptyTurnState selectedToolState ("validate")
        connectivityTool validateExec (some false)).1.1,
    (turn_reset_and_selected_tool_lifecycle emptyTurnState selectedToolState ("validate")
        connectivityTool validateExec (some false)).1.2.1⟩,
   by
    have h := ((turn_reset_and_selected_tool_lifecycle emptyTurnState selectedToolState
        ("validate") connectivityTool validateExec (some false)).2.2 rfl).2
    simpa using h⟩

/-- C6 counterexample. Invoking the validate action of the dashboard without
a configured cluster reaches the trailing throw: the run shows the missing
parameters error, not skipped checks. -/
theorem validate_without_cluster_shows_error :
    runDiagnosticValidate emptyAzureContext none ("t0") ("r0")
      = DiagOutcome.errorShown ("Invalid diagnostic type or missing parameters") := by
  rfl

/-- C6 (amended). The server-side validate tool (modelled from the spec)
returns successful skipped checks, not an error, when no kubeconfig or Arc
context is available, and a validation run with a configured cluster converts
them into findings that preserve the skipped statuses; the dashboard action
itself, invoked without a configured cluster, shows the missing parameters
error instead of skipped checks. -/
theorem cluster_validation_skips_without_kubeconfig :
    ∀ (cluster rg : String) (realChecks : List ApiCheck) (ctx : AzureContext)
      (ts rid : String),
      ((aksArcValidate none cluster rg realChecks).success = true
        ∧ ∀ c ∈ (aksArcValidate none cluster rg realChecks).checks,
            c.status = Status.skipped)
      ∧ (¬ ctx.clusterName = ("") → ¬ ctx.resourceGroup = ("") →
          ∃ f : Findings,
            runDiagnosticValidate ctx (some (aksArcValidate none cluster rg realChecks)) ts rid
              = DiagOutcome.resultsShown f
            ∧ ∀ c ∈ f.checks, c.status = Status.skipped)
      ∧ (ctx.clusterName = ("") →
          runDiagnosticValidate ctx (some (aksArcValidate none cluster rg realChecks)) ts rid
            = DiagOutcome.errorShown ("Invalid diagnostic type or missing parameters")) := by
  intro cluster rg realChecks ctx ts rid
  refine ⟨⟨rfl, ?_⟩, fun h1 h2 => ?_, fun h1 => ?_⟩
  · intro c hc
    simp only [aksArcValidate, List.mem_singleton] at hc
    subst hc
    rfl
  · refine ⟨validateFindingsOf (aksArcValidate none cluster rg realChecks) ts rid, ?_, ?_⟩
    · simp [runDiagnosticValidate, h1, h2, aksArcValidate]
    · intro c hc
      simp only [validateFindingsOf, aksArcValidate, List.map_cons, List.map_nil,
        List.mem_singleton] at hc
      subst hc
      rfl
  · simp [runDiagnosticValidate, h1]

/-- C6 witness. -/
theorem cluster_validation_skips_without_kubeconfig_witness :
    ∃ f : Findings,
      runDiagnosticValidate selectedAzureContext
          (some (aksArcValidate none ("aks1") ("rg1") [])) ("t1") ("r1")
        = DiagOutcome.resultsShown f
      ∧ ∀ c ∈ f.checks, c.status = Status.skipped :=
  ((cluster_validation_skips_without_kubeconfig ("aks1") ("rg1") [] selectedAzureContext
      ("t1") ("r1")).2.1 (by decide) (by decide))

end ArcOps
